import Mathlib

set_option maxRecDepth 100000
set_option maxHeartbeats 1000000

/-!
A verification development for the JSON-schema derivation engine of this
repository.  The repository keeps two revisions of the engine side by side
(both are present in the sources):

* revision 1 (the one exercised by `internal/schema/schema_test.go`): a
  walker with a per-call definitions registry (`$defs`), `$ref`-based
  handling of recursive named structs, no map support (unsupported kinds
  panic), and a plain `Schema` value result;
* revision 2 (the one `tool.go` links against): a richer walker with map
  support, numeric/string/array/object bounds, `format` strings, example
  literals, and a required-set computation, but no definitions registry.

Both walkers are embedded below as executable Lean functions over an
explicit type-descriptor tree (`Ty`): Go's runtime reflection is replaced
by an environment binding the names of named struct types to their field
lists, and Go's panics by an error-returning result type.  Recursion that
Go bounds with runtime state is driven by an explicit fuel parameter; a
`diverge` result means the fuel ran out.  All definitions are structurally
recursive so that the kernel can evaluate them on concrete inputs.

Platform assumptions baked into the model: a 64-bit build (`bits.UintSize
= 64`), ASCII field names and tag values (Go compares map keys bytewise;
the model compares them by character, which agrees on ASCII), and JSON
numbers modelled as exact rationals (Go parses them as IEEE float64; the
claims below only exercise values where the two agree).
-/

/-- A JSON value, as Go's `encoding/json` unmarshals into `any`: `null`,
booleans, numbers, strings, arrays and objects.  Object member lists are
kept sorted by key, mirroring Go's `map[string]any` (whose marshalled form
is key-sorted and whose member order is not observable otherwise). -/
inductive JAny where
  | null : JAny
  | bool (b : Bool) : JAny
  | num (q : ℚ) : JAny
  | str (s : String) : JAny
  | arr (elems : List JAny) : JAny
  | obj (members : List (String × JAny)) : JAny

/-- Is the prefix `pre` an initial segment of `s`?  (Character lists,
bytewise on ASCII, as Go compares strings.) -/
def startsWithL : List Char → List Char → Bool
  | [], _ => true
  | _ :: _, [] => false
  | p :: ps, c :: cs => p = c && startsWithL ps cs

/-- Go `strings.Contains s sub` on character lists. -/
def containsSubL (s sub : List Char) : Bool :=
  if startsWithL sub s then true
  else match s with
    | [] => false
    | _ :: rest => containsSubL rest sub

/-- Go `strings.Contains`. -/
def goContains (s sub : String) : Bool :=
  containsSubL s.data sub.data

/-- Go `strings.Split s ","` on character lists: the comma-separated
pieces, with empty pieces kept. -/
def splitCommaL : List Char → List (List Char)
  | [] => [[]]
  | c :: rest =>
    if c = ',' then [] :: splitCommaL rest
    else match splitCommaL rest with
      | [] => [[c]]
      | p :: ps => (c :: p) :: ps

/-- Go `strings.Split s ","`. -/
def goSplitComma (s : String) : List String :=
  (splitCommaL s.data).map String.mk

/-- The part of `s` before its first comma: the first component of Go
`strings.Cut(s, ",")`. -/
def goCutComma (s : String) : String :=
  String.mk (s.data.takeWhile (fun c => c ≠ ','))

/-- The white-space characters Go's `strings.TrimSpace` strips (the ASCII
part of `unicode.IsSpace`). -/
def goIsSpace (c : Char) : Bool :=
  c = ' ' || c = '\t' || c = '\n' || c = '\r' || c = '\x0b' || c = '\x0c'

/-- Go `strings.TrimSpace` (ASCII white space). -/
def goTrimSpace (s : String) : String :=
  String.mk (((s.data.dropWhile goIsSpace).reverse.dropWhile goIsSpace).reverse)

/-- A field's tag metadata: the parsed form of a Go struct tag, a list of
key/value pairs.  `tagLookup` is `StructTag.Lookup` (present/absent is
observable), `tagGet` is `StructTag.Get` (absent reads as ""). -/
abbrev Tags := List (String × String)

/-- Go `reflect.StructTag.Lookup`. -/
def tagLookup (tags : Tags) (key : String) : Option String :=
  List.lookup key tags

/-- Go `reflect.StructTag.Get`. -/
def tagGet (tags : Tags) (key : String) : String :=
  (tagLookup tags key).getD ""

/-- 10^k as an integer (structurally, so that the kernel evaluates it). -/
def pow10 : Nat → Int
  | 0 => 1
  | n + 1 => 10 * pow10 n

/-- Decimal digit test. -/
def isDigit (c : Char) : Bool :=
  '0' ≤ c && c ≤ '9'

/-- The number a list of decimal digits denotes. -/
def digitsToNat : List Char → Nat → Nat
  | [], acc => acc
  | c :: rest, acc => digitsToNat rest (acc * 10 + (c.toNat - '0'.toNat))

/-- Skip JSON white space. -/
def skipWs (s : List Char) : List Char :=
  s.dropWhile (fun c => c = ' ' || c = '\t' || c = '\n' || c = '\r')

/-- Parse a JSON string body (after the opening quote): the decoded
characters and the remaining input.  Handles the escapes `\" \\ \/ \b \f
\n \r \t` and `\uXXXX` (as a single scalar; surrogate pairs are beyond
what any tag literal in this repository uses). -/
def parseStrBody : Nat → List Char → Except String (List Char × List Char)
  | 0, _ => .error "string literal too long"
  | _, [] => .error "unexpected end of JSON input in string"
  | fuel + 1, c :: rest =>
    if c = '"' then .ok ([], rest)
    else if c = '\\' then
      match rest with
      | [] => .error "unexpected end of JSON input in escape"
      | e :: rest2 =>
        let decoded : Except String (Char × List Char) :=
          if e = '"' then .ok ('"', rest2)
          else if e = '\\' then .ok ('\\', rest2)
          else if e = '/' then .ok ('/', rest2)
          else if e = 'b' then .ok ('\x08', rest2)
          else if e = 'f' then .ok ('\x0c', rest2)
          else if e = 'n' then .ok ('\n', rest2)
          else if e = 'r' then .ok ('\r', rest2)
          else if e = 't' then .ok ('\t', rest2)
          else if e = 'u' then
            match rest2 with
            | h1 :: h2 :: h3 :: h4 :: rest3 =>
              let hex := fun (c : Char) =>
                let n := c.toNat
                if 48 ≤ n && n ≤ 57 then some (n - 48)
                else if 97 ≤ n && n ≤ 102 then some (n - 87)
                else if 65 ≤ n && n ≤ 70 then some (n - 55)
                else none
              match hex h1, hex h2, hex h3, hex h4 with
              | some a, some b, some c', some d =>
                .ok (Char.ofNat (((a * 16 + b) * 16 + c') * 16 + d), rest3)
              | _, _, _, _ => .error "invalid \\u escape in string"
            | _ => .error "invalid \\u escape in string"
          else .error "invalid escape character in string"
        match decoded with
        | .error msg => .error msg
        | .ok (ch, rest3) =>
          match parseStrBody fuel rest3 with
          | .error msg => .error msg
          | .ok (tail, rem) => .ok (ch :: tail, rem)
    else
      match parseStrBody fuel rest with
      | .error msg => .error msg
      | .ok (tail, rem) => .ok (c :: tail, rem)

/-- Parse a JSON number at the head of the input: the exact rational it
denotes and the remaining input.  Go parses into a float64; the claims
only use values on which the two readings agree. -/
def parseNum (s : List Char) : Except String (ℚ × List Char) :=
  let (neg, s1) :=
    match s with
    | '-' :: rest => (true, rest)
    | _ => (false, s)
  let intDigits := s1.takeWhile isDigit
  let s2 := s1.dropWhile isDigit
  if intDigits = [] then .error "invalid number literal" else
  let (fracDigits, s3) :=
    match s2 with
    | '.' :: rest => (rest.takeWhile isDigit, rest.dropWhile isDigit)
    | _ => ([], s2)
  if s2 ≠ [] && s2.headD ' ' = '.' && fracDigits = [] then
    .error "invalid number literal"
  else
    let (expNeg, expDigits, s4) :=
      match s3 with
      | 'e' :: '-' :: rest => (true, rest.takeWhile isDigit, rest.dropWhile isDigit)
      | 'e' :: '+' :: rest => (false, rest.takeWhile isDigit, rest.dropWhile isDigit)
      | 'e' :: rest => (false, rest.takeWhile isDigit, rest.dropWhile isDigit)
      | 'E' :: '-' :: rest => (true, rest.takeWhile isDigit, rest.dropWhile isDigit)
      | 'E' :: '+' :: rest => (false, rest.takeWhile isDigit, rest.dropWhile isDigit)
      | 'E' :: rest => (false, rest.takeWhile isDigit, rest.dropWhile isDigit)
      | _ => (false, [], s3)
    if (s3 ≠ [] && (s3.headD ' ' = 'e' || s3.headD ' ' = 'E')) && expDigits = [] then
      .error "invalid number literal"
    else
      let mantissa : Int :=
        (if neg then -1 else 1) *
          Int.ofNat (digitsToNat (intDigits ++ fracDigits) 0)
      let exp : Int :=
        (if expNeg then -(Int.ofNat (digitsToNat expDigits 0))
         else Int.ofNat (digitsToNat expDigits 0)) - Int.ofNat fracDigits.length
      let q : ℚ :=
        if 0 ≤ exp then Rat.divInt (mantissa * pow10 exp.toNat) 1
        else Rat.divInt mantissa (pow10 (-exp).toNat)
      .ok (q, s4)

/-- Insert a member into a key-sorted member list, replacing an existing
binding of the same key: the model of storing into Go's `map[string]any`
(later duplicate keys win, order is canonical). -/
def insertMember (key : String) (v : JAny) : List (String × JAny) → List (String × JAny)
  | [] => [(key, v)]
  | (k, w) :: rest =>
    if key = k then (k, v) :: rest
    else if key.data < k.data then (key, v) :: (k, w) :: rest
    else (k, w) :: insertMember key v rest

/-- Parse the elements of a non-empty JSON array (after `[`), given the
parser `pv` for one value. -/
def parseElems (pv : List Char → Except String (JAny × List Char)) :
    Nat → List Char → Except String (List JAny × List Char)
  | 0, _ => .error "JSON array too long"
  | fuel + 1, s =>
    match pv s with
    | .error msg => .error msg
    | .ok (v, rest) =>
      match skipWs rest with
      | ',' :: rest2 =>
        match parseElems pv fuel rest2 with
        | .error msg => .error msg
        | .ok (vs, rem) => .ok (v :: vs, rem)
      | ']' :: rem => .ok ([v], rem)
      | _ => .error "invalid character after array element"

/-- Parse the members of a non-empty JSON object (after the opening
brace), storing them as a `map[string]any` does, given the parser `pv`
for one value. -/
def parseMembers (pv : List Char → Except String (JAny × List Char)) :
    Nat → List Char → Except String (List (String × JAny) × List Char)
  | 0, _ => .error "JSON object too long"
  | fuel + 1, s =>
    match skipWs s with
    | '"' :: rest =>
      match parseStrBody (rest.length + 1) rest with
      | .error msg => .error msg
      | .ok (keyBody, rest2) =>
        match skipWs rest2 with
        | ':' :: rest3 =>
          match pv rest3 with
          | .error msg => .error msg
          | .ok (v, rest4) =>
            match skipWs rest4 with
            | ',' :: rest5 =>
              match parseMembers pv fuel rest5 with
              | .error msg => .error msg
              | .ok (members, rem) =>
                .ok (insertMember (String.mk keyBody) v members, rem)
            | '\x7d' :: rem => .ok ([(String.mk keyBody, v)], rem)
            | _ => .error "invalid character after object member"
        | _ => .error "invalid character after object key"
    | _ => .error "invalid character looking for object key"

/-- Parse one JSON value at the head of the input. -/
def parseVal : Nat → List Char → Except String (JAny × List Char)
  | 0, _ => .error "JSON value nested too deeply"
  | fuel + 1, s =>
    match skipWs s with
    | [] => .error "unexpected end of JSON input"
    | c :: rest =>
      if c = 'n' then
        if startsWithL "ull".data rest then .ok (.null, rest.drop 3)
        else .error "invalid character looking for beginning of value"
      else if c = 't' then
        if startsWithL "rue".data rest then .ok (.bool true, rest.drop 3)
        else .error "invalid character looking for beginning of value"
      else if c = 'f' then
        if startsWithL "alse".data rest then .ok (.bool false, rest.drop 4)
        else .error "invalid character looking for beginning of value"
      else if c = '"' then
        match parseStrBody (rest.length + 1) rest with
        | .error msg => .error msg
        | .ok (body, rem) => .ok (.str (String.mk body), rem)
      else if c = '[' then
        match skipWs rest with
        | ']' :: rem => .ok (.arr [], rem)
        | _ =>
          match parseElems (parseVal fuel) (rest.length + 1) (skipWs rest) with
          | .error msg => .error msg
          | .ok (elems, rem) => .ok (.arr elems, rem)
      else if c = '\x7b' then
        match skipWs rest with
        | '\x7d' :: rem => .ok (.obj [], rem)
        | _ =>
          match parseMembers (parseVal fuel) (rest.length + 1) (skipWs rest) with
          | .error msg => .error msg
          | .ok (members, rem) => .ok (.obj members, rem)
      else if c = '-' || isDigit c then
        match parseNum (c :: rest) with
        | .error msg => .error msg
        | .ok (q, rem) => .ok (.num q, rem)
      else .error "invalid character looking for beginning of value"

/-- Go `json.Unmarshal` of a tag literal into `any`: the whole input must
be one JSON value (plus white space). -/
def jsonUnmarshal (s : String) : Except String JAny :=
  match parseVal (s.length + 1) s.data with
  | .error msg => .error msg
  | .ok (v, rest) =>
    if skipWs rest = [] then .ok v
    else .error "invalid character after top-level value"

/-- Render a rational as Go's encoder prints the float64 it stands for:
integers without a point, terminating decimals with one.  (A rational
whose denominator is not of the form 2^a*5^b cannot come out of the JSON
parser; such values fall back to a num/den form.) -/
def renderQ (q : ℚ) : String :=
  if q.den = 1 then toString q.num
  else
    let k := (List.range 40).find? (fun k => (pow10 (k + 1)) % (q.den : Int) = 0)
    match k with
    | some k =>
      let scaled := q.num * (pow10 (k + 1) / (q.den : Int))
      let digits := toString scaled.natAbs
      let digits :=
        if digits.length ≤ k + 1 then
          String.mk (List.replicate (k + 2 - digits.length) '0') ++ digits
        else digits
      let point := digits.length - (k + 1)
      (if q.num < 0 then "-" else "") ++
        String.mk (digits.data.take point) ++ "." ++ String.mk (digits.data.drop point)
    | none => toString q.num ++ "/" ++ toString q.den

/-- Escape a string as Go's JSON encoder does for the characters the
claims exercise (quote, backslash, the common control characters; Go's
additional HTML escaping of `&`, `<`, `>` is not modelled). -/
def renderStrBody (s : List Char) : String :=
  match s with
  | [] => ""
  | c :: rest =>
    (if c = '"' then "\\\""
     else if c = '\\' then "\\\\"
     else if c = '\n' then "\\n"
     else if c = '\t' then "\\t"
     else if c = '\r' then "\\r"
     else String.mk [c]) ++ renderStrBody rest

/-- Join rendered pieces with commas. -/
def joinComma : List String → String
  | [] => ""
  | [s] => s
  | s :: rest => s ++ "," ++ joinComma rest

/-- Render a JSON value as compact JSON text (fuel-driven so that the
kernel can evaluate it; the fuel bounds the nesting depth). -/
def jrenderF : Nat → JAny → String
  | 0, _ => ""
  | _, .null => "null"
  | _, .bool true => "true"
  | _, .bool false => "false"
  | _, .num q => renderQ q
  | _, .str s => "\"" ++ renderStrBody s.data ++ "\""
  | fuel + 1, .arr elems =>
    "[" ++ joinComma (elems.map (fun e => jrenderF fuel e)) ++ "]"
  | fuel + 1, .obj members =>
    "\x7b" ++
      joinComma (members.map
        (fun m => "\"" ++ renderStrBody m.1.data ++ "\":" ++ jrenderF fuel m.2)) ++
      "\x7d"

/-- Render a JSON value as compact JSON text, as `json.Marshal` does
(objects print their member lists as stored; parsed objects are stored
key-sorted, mirroring Go's sorted map marshalling).  The fixed fuel covers
any nesting depth the schema engine can produce. -/
def jrender (j : JAny) : String :=
  jrenderF 1000000 j

/-- The width-classes of Go's integer kinds (`reflect.Int` … `reflect.Uint64`). -/
inductive IntKind where
  | i | i8 | i16 | i32 | i64 | u | u8 | u16 | u32 | u64
  deriving DecidableEq

/-- Is the kind an unsigned integer kind? -/
def IntKind.unsigned : IntKind → Bool
  | .u | .u8 | .u16 | .u32 | .u64 => true
  | _ => false

/-- The `format` string revision 2 attaches to an integer kind, on a
64-bit build (`bits.UintSize = 64`). -/
def IntKind.format : IntKind → String
  | .i => "int64"
  | .i8 | .i16 | .i32 => "int32"
  | .i64 => "int64"
  | .u => "int64"
  | .u8 | .u16 | .u32 => "int32"
  | .u64 => "int64"

mutual

/-- The type-descriptor tree: the part of Go's `reflect.Type` the schema
engine inspects.  A named struct type is a `named` reference resolved in
an environment, so a self-referential struct is a finite descriptor; an
anonymous struct literal carries its fields inline.  The well-known leaf
types (`time.Time`, `url.URL`, `net.IP`, `netip.Addr`,
`json.RawMessage`) and a family of kinds the walkers do not support
(channels, functions, interfaces, complex numbers, `uintptr`,
`unsafe.Pointer`) are their own constructors. -/
inductive Ty where
  | bool : Ty
  | str : Ty
  | int (k : IntKind) : Ty
  | f32 : Ty
  | f64 : Ty
  | ptr (elem : Ty) : Ty
  | slice (elem : Ty) : Ty
  | array (n : Nat) (elem : Ty) : Ty
  | mapT (key val : Ty) : Ty
  | strukt (fields : List StructField) : Ty
  | named (name : String) : Ty
  | timeT : Ty
  | urlT : Ty
  | ipT : Ty
  | ipAddrT : Ty
  | rawMsgT : Ty
  | chanT (elem : Ty) : Ty
  | funcT : Ty
  | ifaceT : Ty
  | complexT : Ty
  | uintptrT : Ty
  | unsafeT : Ty

/-- A struct field descriptor: declared name, type, parsed tag, and the
`Anonymous` (embedded) and `IsExported` reflection attributes. -/
inductive StructField where
  | mk (name : String) (typ : Ty) (tags : Tags) (anonymous exported : Bool) : StructField

end

/-- The field's declared (Go) name. -/
def StructField.name : StructField → String
  | .mk n _ _ _ _ => n

/-- The field's declared type. -/
def StructField.typ : StructField → Ty
  | .mk _ t _ _ _ => t

/-- The field's parsed struct tag. -/
def StructField.tags : StructField → Tags
  | .mk _ _ ts _ _ => ts

/-- Is the field embedded (`Anonymous`)? -/
def StructField.anonymous : StructField → Bool
  | .mk _ _ _ a _ => a

/-- Is the field exported? -/
def StructField.exported : StructField → Bool
  | .mk _ _ _ _ e => e

/-- The environment resolving named struct types to their field lists:
the explicit stand-in for the type graph runtime reflection walks. -/
abbrev Env := List (String × List StructField)

/-- Go's `for typ.Kind() == reflect.Pointer { typ = typ.Elem() }`. -/
def stripPtr : Ty → Ty
  | .ptr t => stripPtr t
  | t => t

/-- Go's `typ.String()`: the printed form of a type, used as the
definitions-registry key.  Names of named structs are stored already
package-qualified; an anonymous struct prints as a placeholder (such a
key is never registered, so its exact text is immaterial). -/
def typeString : Ty → String
  | .bool => "bool"
  | .str => "string"
  | .int .i => "int"
  | .int .i8 => "int8"
  | .int .i16 => "int16"
  | .int .i32 => "int32"
  | .int .i64 => "int64"
  | .int .u => "uint"
  | .int .u8 => "uint8"
  | .int .u16 => "uint16"
  | .int .u32 => "uint32"
  | .int .u64 => "uint64"
  | .f32 => "float32"
  | .f64 => "float64"
  | .ptr t => "*" ++ typeString t
  | .slice t => "[]" ++ typeString t
  | .array n t => "[" ++ toString n ++ "]" ++ typeString t
  | .mapT k v => "map[" ++ typeString k ++ "]" ++ typeString v
  | .strukt _ => "struct \x7b ... \x7d"
  | .named s => s
  | .timeT => "time.Time"
  | .urlT => "url.URL"
  | .ipT => "net.IP"
  | .ipAddrT => "netip.Addr"
  | .rawMsgT => "json.RawMessage"
  | .chanT t => "chan " ++ typeString t
  | .funcT => "func()"
  | .ifaceT => "interface \x7b\x7d"
  | .complexT => "complex128"
  | .uintptrT => "uintptr"
  | .unsafeT => "unsafe.Pointer"

/-- Go's `typ.Name() != ""`: does the type have a (package-local) name?
Predeclared scalar types and the well-known leaf types are named;
pointer, slice, array, map, channel, function, interface and anonymous
struct types are not. -/
def hasName : Ty → Bool
  | .ptr _ | .slice _ | .array _ _ | .mapT _ _ | .strukt _
  | .chanT _ | .funcT | .ifaceT => false
  | _ => true

/-- For a type of struct kind: its name (if any) and its field list.
`none` for every non-struct kind.  The well-known leaf struct types have
no exported fields. -/
def structFieldsOf (env : Env) : Ty → Option (Option String × List StructField)
  | .strukt fields => some (none, fields)
  | .named s => (List.lookup s env).map (fun fields => (some s, fields))
  | .timeT => some (some "time.Time", [])
  | .urlT => some (some "url.URL", [])
  | .ipAddrT => some (some "netip.Addr", [])
  | _ => none

/-- Expand a list of embedded fields (`getFields`' second loop), given
the recursive expander for one struct type.  An embedded field of struct
kind is expanded directly, one of pointer kind through its pointee; any
other kind contributes nothing (the `default:` arm).  An embedded
pointer to a non-struct named type, on which Go's `NumField` would
panic, is not modelled (no claim exercises one). -/
def expandEmbedded (env : Env)
    (expand : Option String → List StructField → List String → Option (List StructField × List String)) :
    List StructField → List String → Option (List StructField × List String)
  | [], visited => some ([], visited)
  | f :: rest, visited =>
    let sub : Option (List StructField × List String) :=
      match f.typ with
      | .ptr inner =>
        match structFieldsOf env inner with
        | some (nameOpt, ffs) => expand nameOpt ffs visited
        | none => some ([], visited)
      | t =>
        match structFieldsOf env t with
        | some (nameOpt, ffs) => expand nameOpt ffs visited
        | none => some ([], visited)
    match sub with
    | none => none
    | some (ffs, visited2) =>
      match expandEmbedded env expand rest visited2 with
      | none => none
      | some (more, visited3) => some (ffs ++ more, visited3)

/-- `getFields` (identical in both revisions): the flattened exported
field list of a struct type — directly declared fields first, embedded
fields expanded recursively and appended after, with a visited set keyed
by type identity so that a struct type already being expanded
contributes nothing.  Returns the fields together with the final visited
set; `none` means the fuel ran out. -/
def getFields (env : Env) : Nat → Option String → List StructField → List String →
    Option (List StructField × List String)
  | 0, _, _, _ => none
  | fuel + 1, nameOpt, fields, visited =>
    let proceed := fun (visited : List String) =>
      let direct := fields.filter (fun f => f.exported && !f.anonymous)
      let embedded := fields.filter (fun f => f.exported && f.anonymous)
      match expandEmbedded env (getFields env fuel) embedded visited with
      | none => none
      | some (expanded, visited2) => some (direct ++ expanded, visited2)
    match nameOpt with
    | some n => if visited.contains n then some ([], visited) else proceed (n :: visited)
    | none => proceed visited

/-- The `type` names of the schema dialect (`typeBoolean` … `typeObject`
in revision 1, `TypeBoolean` … `TypeObject` in revision 2; the strings
are identical). -/
def typeBoolean : String := "boolean"

/-- The JSON-schema `integer` type name. -/
def typeInteger : String := "integer"

/-- The JSON-schema `number` type name. -/
def typeNumber : String := "number"

/-- The JSON-schema `string` type name. -/
def typeStringT : String := "string"

/-- The JSON-schema `array` type name. -/
def typeArray : String := "array"

/-- The JSON-schema `object` type name. -/
def typeObject : String := "object"

/-- `boolTag` (identical in both revisions): reads a boolean-valued tag;
an absent or empty tag reads as `false`, `"true"`/`"false"` read as
themselves, and any other literal is an error naming the tag and the
field. -/
def boolTag (f : StructField) (tag : String) : Except String Bool :=
  let value := tagGet f.tags tag
  if value = "" then .ok false
  else if value = "true" then .ok true
  else if value = "false" then .ok false
  else .error ("invalid bool tag '" ++ tag ++ "' for field '" ++ f.name ++ "': " ++ value)

/-- Go `strconv.Atoi`: an optional sign followed by at least one digit. -/
def goAtoi (s : String) : Option Int :=
  let (neg, digits) :=
    match s.data with
    | '-' :: rest => (true, rest)
    | '+' :: rest => (false, rest)
    | l => (false, l)
  if digits = [] || !(digits.all isDigit) then none
  else some ((if neg then -1 else 1) * Int.ofNat (digitsToNat digits 0))

/-- `intTag` (revision 2): reads an integer-valued tag via
`strconv.Atoi`; an absent or empty tag reads as unset. -/
def intTag (f : StructField) (tag : String) : Except String (Option Int) :=
  let value := tagGet f.tags tag
  if value = "" then .ok none
  else match goAtoi value with
    | some n => .ok (some n)
    | none =>
      .error ("invalid int tag '" ++ tag ++ "' for field '" ++ f.name ++ "': " ++ value ++
        " (strconv.Atoi: parsing \"" ++ value ++ "\": invalid syntax)")

/-- Go `strconv.ParseFloat` on the grammar the claims exercise (decimal
literals with optional sign, fraction and exponent), read exactly. -/
def goParseFloat (s : String) : Option ℚ :=
  let body :=
    match s.data with
    | '+' :: rest => rest
    | l => l
  match parseNum body with
  | .ok (q, []) => some q
  | _ => none

/-- `floatTag` (revision 2): reads a float-valued tag via
`strconv.ParseFloat`; an absent or empty tag reads as unset. -/
def floatTag (f : StructField) (tag : String) : Except String (Option ℚ) :=
  let value := tagGet f.tags tag
  if value = "" then .ok none
  else match goParseFloat value with
    | some q => .ok (some q)
    | none =>
      .error ("invalid float tag '" ++ tag ++ "' for field '" ++ f.name ++ "': " ++ value ++
        " (strconv.ParseFloat: parsing \"" ++ value ++ "\": invalid syntax)")

/-- The result of a walker call: a value, a recovered panic (Go's `For`
turns panics into errors), or fuel exhaustion (the model's name for a
computation the Go code would not finish). -/
inductive Res (α : Type) where
  | ok (val : α) : Res α
  | fail (msg : String) : Res α
  | diverge : Res α
  deriving DecidableEq

/-- Chain a walker result. -/
def Res.bind : Res α → (α → Res β) → Res β
  | .ok a, f => f a
  | .fail msg, _ => .fail msg
  | .diverge, _ => .diverge

/-- Map over a walker result. -/
def Res.map (f : α → β) : Res α → Res β
  | .ok a => .ok (f a)
  | .fail msg => .fail msg
  | .diverge => .diverge

/-- Lift a pure failure into a walker result. -/
def Res.ofExcept : Except String α → Res α
  | .ok a => .ok a
  | .error msg => .fail msg

namespace schema2

/-- The non-recursive fields of revision 2's `Schema` struct, with Go's
zero values as defaults (`nil` pointers are `none`, empty strings and
slices are unset). -/
structure Core where
  type : String := ""
  enum : List JAny := []
  multipleOf : Option ℚ := none
  maximum : Option ℚ := none
  exclusiveMaximum : Option ℚ := none
  minimum : Option ℚ := none
  exclusiveMinimum : Option ℚ := none
  maxLength : Option Int := none
  minLength : Option Int := none
  pattern : String := ""
  maxItems : Option Int := none
  minItems : Option Int := none
  uniqueItems : Bool := false
  maxProperties : Option Int := none
  minProperties : Option Int := none
  required : List String := []
  format : String := ""
  contentEncoding : String := ""
  title : String := ""
  description : String := ""
  examples : List JAny := []

/-- Revision 2's `Schema`: the core fields plus the recursive members —
`Items`, `Properties` (an association list standing for the Go map;
its order is the insertion order, which serialization does not expose),
and `AdditionalProperties` (`any` in Go: absent, a boolean, or a child
schema). -/
inductive Schema where
  | mk (core : Core) (items : Option Schema)
      (properties : List (String × Schema))
      (additionalProperties : Option (Bool ⊕ Schema)) : Schema

/-- The schema's non-recursive core. -/
def Schema.core : Schema → Core
  | .mk c _ _ _ => c

/-- The schema's `Items` child. -/
def Schema.items : Schema → Option Schema
  | .mk _ i _ _ => i

/-- The schema's `Properties` map (as an association list). -/
def Schema.properties : Schema → List (String × Schema)
  | .mk _ _ p _ => p

/-- The schema's `AdditionalProperties` member. -/
def Schema.ap : Schema → Option (Bool ⊕ Schema)
  | .mk _ _ _ a => a

/-- The schema's `type` tag. -/
def Schema.type (s : Schema) : String :=
  s.core.type

/-- The schema's `required` list. -/
def Schema.required (s : Schema) : List String :=
  s.core.required

/-- The schema's `enum` list. -/
def Schema.enum (s : Schema) : List JAny :=
  s.core.enum

/-- The schema's `description`. -/
def Schema.description (s : Schema) : String :=
  s.core.description

/-- A schema with no recursive members. -/
def leaf (c : Core) : Schema :=
  .mk c none [] none

/-- Rewrite the schema's core. -/
def Schema.mapCore (f : Core → Core) : Schema → Schema
  | .mk c i p a => .mk (f c) i p a

/-- `props[name] = fs`: bind a key in the properties map (replace an
existing binding, else append). -/
def upsert (key : String) (v : Schema) : List (String × Schema) → List (String × Schema)
  | [] => [(key, v)]
  | (k, w) :: rest =>
    if k = key then (k, v) :: rest
    else (k, w) :: upsert key v rest

/-- One step of `ensureType`'s recursion over an array literal's
elements (`et` is `ensureType` at the items schema), extending the field
path with the element index. -/
def ensureItems (et : String → String → JAny → Except String Unit)
    (fieldName : String) : List JAny → Nat → Except String Unit
  | [], _ => .ok ()
  | item :: rest, i =>
    match et (fieldName ++ "[" ++ toString i ++ "]") (jrender item) item with
    | .error msg => .error msg
    | .ok _ => ensureItems et fieldName rest (i + 1)

/-- One step of `ensureType`'s recursion over an object literal: each
declared property present in the literal is checked recursively (`et`
takes the property's schema), extending the field path with the dotted
property name. -/
def ensureProps (et : Schema → String → String → JAny → Except String Unit)
    (fieldName : String) (members : List (String × JAny)) :
    List (String × Schema) → Except String Unit
  | [] => .ok ()
  | (name, prop) :: rest =>
    match List.lookup name members with
    | some v =>
      match et prop (fieldName ++ "." ++ name) (jrender v) v with
      | .error msg => .error msg
      | .ok _ => ensureProps et fieldName members rest
    | none => ensureProps et fieldName members rest

/-- `ensureType` (revision 2): recursively check a parsed tag literal
against the schema inferred for its field.  A schema whose `type` is not
one of the six dialect names accepts anything (the `switch` has no such
case).  The integer case's `f != float64(int(f))` test is the
integrality of the (exactly represented) number. -/
def ensureType : Nat → String → Schema → String → JAny → Except String Unit
  | 0, _, _, _, _ => .error "schema nested too deeply"
  | fuel + 1, fieldName, schema, value, tagValue =>
    if schema.type = typeBoolean then
      match tagValue with
      | .bool _ => .ok ()
      | _ => .error ("invalid boolean tag value '" ++ value ++ "' for field '" ++ fieldName ++ "'")
    else if schema.type = typeNumber then
      match tagValue with
      | .num _ => .ok ()
      | _ => .error ("invalid number tag value '" ++ value ++ "' for field '" ++ fieldName ++ "'")
    else if schema.type = typeInteger then
      match tagValue with
      | .num q =>
        if q.den = 1 then .ok ()
        else .error ("invalid integer tag value '" ++ value ++ "' for field '" ++ fieldName ++ "'")
      | _ => .error ("invalid integer tag value '" ++ value ++ "' for field '" ++ fieldName ++ "'")
    else if schema.type = typeStringT then
      match tagValue with
      | .str _ => .ok ()
      | _ => .error ("invalid string tag value '" ++ value ++ "' for field '" ++ fieldName ++ "'")
    else if schema.type = typeArray then
      match tagValue with
      | .arr items =>
        match schema.items with
        | some itemSchema =>
          ensureItems (fun fn v j => ensureType fuel fn itemSchema v j) fieldName items 0
        | none => .ok ()
      | _ => .error ("invalid array tag value '" ++ value ++ "' for field '" ++ fieldName ++ "'")
    else if schema.type = typeObject then
      match tagValue with
      | .obj members =>
        ensureProps (fun prop fn v j => ensureType fuel fn prop v j) fieldName members
          schema.properties
      | _ => .error ("invalid object tag value '" ++ value ++ "' for field '" ++ fieldName ++ "'")
    else .ok ()

/-- `jsonTagValue` (revision 2): interpret a tag literal against the
field's inferred schema.  A string-typed schema takes the literal
verbatim; an array-of-strings schema takes a comma-separated list when
the literal does not start with `[` (Go indexes `value[0]`, a runtime
panic on an empty literal); anything else is parsed as JSON and checked
by `ensureType`.  (The parse-failure message wraps `encoding/json`'s
text, which the model abbreviates; no claim depends on it.) -/
def jsonTagValue (fieldName : String) (schema : Schema) (value : String) :
    Except String JAny :=
  let parseAndCheck : Except String JAny :=
    match jsonUnmarshal value with
    | .error e =>
      .error ("invalid " ++ schema.type ++ " tag value '" ++ value ++ "' for field '" ++
        fieldName ++ "': " ++ e)
    | .ok v =>
      match ensureType 1000000 fieldName schema value v with
      | .error e => .error e
      | .ok _ => .ok v
  if schema.type = typeStringT then .ok (.str value)
  else if schema.type = typeArray &&
      (match schema.items with
       | some it => it.type = typeStringT
       | none => false) then
    match value.data with
    | [] => .error "runtime error: index out of range [0] with length 0"
    | c :: _ =>
      if c = '[' then parseAndCheck
      else .ok (.arr ((goSplitComma value).map (fun s => .str (goTrimSpace s))))
  else parseAndCheck

/-- Coerce each tag literal of an `enum` list against the target schema
(the loop body of the `enum` handling in `schemaForField`). -/
def coerceEnum (fieldName : String) (schema : Schema) : List String → Except String (List JAny)
  | [] => .ok []
  | v :: rest =>
    match jsonTagValue fieldName schema v with
    | .error msg => .error msg
    | .ok e =>
      match coerceEnum fieldName schema rest with
      | .error msg => .error msg
      | .ok es => .ok (e :: es)

/-- The tag-driven portion of `schemaForField` (revision 2), applied to
the field's already-derived base schema: description, format and
encoding overrides, the `example` literal, the `enum` literal list
(coerced against the field's own schema type, or the item schema for an
array field, and stored there), and the numeric/string/array/object
bound tags, in the source's order. -/
def fieldTagsApply (f : StructField) (s0 : Schema) : Except String Schema := do
  let s1 :=
    if tagGet f.tags "description" ≠ "" then
      s0.mapCore (fun c => { c with description := tagGet f.tags "description" }) else s0
  let s2 :=
    if tagGet f.tags "format" ≠ "" then
      s1.mapCore (fun c => { c with format := tagGet f.tags "format" }) else s1
  let s3 :=
    if tagGet f.tags "encoding" ≠ "" then
      s2.mapCore (fun c => { c with contentEncoding := tagGet f.tags "encoding" }) else s2
  let s4 ←
    if tagGet f.tags "example" ≠ "" then do
      let e ← jsonTagValue f.name s3 (tagGet f.tags "example")
      match e with
      | .null => pure s3
      | _ => pure (s3.mapCore (fun c => { c with examples := [e] }))
    else pure s3
  let s5 ←
    if tagGet f.tags "enum" ≠ "" then
      let parts := goSplitComma (tagGet f.tags "enum")
      if s4.type = typeArray then
        match s4.items with
        | some itemSchema => do
          let vals ← coerceEnum f.name itemSchema parts
          pure (.mk s4.core (some (itemSchema.mapCore (fun c => { c with enum := vals })))
            s4.properties s4.ap)
        | none =>
          -- `schema = schema.Items` with nil Items: the recovered Go panic
          .error "runtime error: invalid memory address or nil pointer dereference"
      else do
        let vals ← coerceEnum f.name s4 parts
        pure (s4.mapCore (fun c => { c with enum := vals }))
    else pure s4
  let multipleOf ← floatTag f "multipleOf"
  let maximum ← floatTag f "maximum"
  let exclusiveMaximum ← floatTag f "exclusiveMaximum"
  let minimum ← floatTag f "minimum"
  let exclusiveMinimum ← floatTag f "exclusiveMinimum"
  let minLength ← intTag f "minLength"
  let maxLength ← intTag f "maxLength"
  let minItems ← intTag f "minItems"
  let maxItems ← intTag f "maxItems"
  let uniqueItems ← boolTag f "uniqueItems"
  let minProperties ← intTag f "minProperties"
  let maxProperties ← intTag f "maxProperties"
  pure (s5.mapCore (fun c =>
    { c with
      multipleOf := multipleOf
      maximum := maximum
      exclusiveMaximum := exclusiveMaximum
      minimum := minimum
      exclusiveMinimum := exclusiveMinimum
      minLength := minLength
      maxLength := maxLength
      pattern := tagGet f.tags "pattern"
      minItems := minItems
      maxItems := maxItems
      uniqueItems := uniqueItems
      minProperties := minProperties
      maxProperties := maxProperties }))

/-- `schemaForField` (revision 2): derive the field's base schema from
its type (`sf` is `schemaFor` at the remaining fuel) and bind the
field's constraint tags onto it. -/
def schemaForField (sf : Ty → Res Schema) (f : StructField) : Res Schema :=
  match sf f.typ with
  | .ok s0 => Res.ofExcept (fieldTagsApply f s0)
  | .fail msg => .fail msg
  | .diverge => .diverge

/-- The field loop of revision 2's struct case: skip a field whose
declared name was already seen (`fieldSet`, which makes a directly
declared field shadow a同-named embedded one), then the `json` tag's name
(a leading `-` drops the field), the required-ness resolution (default
`true`, flipped when the `json` tag contains the text "omitempty",
overridden by an explicit `required` tag), the field's schema, and the
`properties`/`required` accumulation in field order. -/
def walkFields (handle : StructField → Res Schema) :
    List StructField → List String → List (String × Schema) → List String →
    Res (List (String × Schema) × List String)
  | [], _, props, required => .ok (props, required)
  | f :: rest, fieldSet, props, required =>
    if fieldSet.contains f.name then walkFields handle rest fieldSet props required
    else
      let fieldSet := f.name :: fieldSet
      let n0 := goCutComma (tagGet f.tags "json")
      if n0 = "-" then walkFields handle rest fieldSet props required
      else
        let name := if n0 = "" then f.name else n0
        let baseRequired := !(goContains (tagGet f.tags "json") "omitempty")
        match (match tagLookup f.tags "required" with
               | some _ => boolTag f "required"
               | none => .ok baseRequired) with
        | .error msg => .fail msg
        | .ok fieldRequired =>
          match handle f with
          | .fail msg => .fail msg
          | .diverge => .diverge
          | .ok fs =>
            walkFields handle rest fieldSet (upsert name fs props)
              (if fieldRequired then required ++ [name] else required)

/-- The fields named `_` found at one breadth-first search level, each
flagged when its enclosing type is reachable more than once at that
level (reflect's `count > 1` ambiguity flag). -/
def levelBlanks (level : List (Bool × List StructField)) : List (Bool × StructField) :=
  (level.map (fun e => (e.2.filter (fun f => f.name = "_")).map (fun f => (e.1, f)))).join

/-- The embedded (anonymous) fields of a search level that name a
struct type, behind at most one pointer, together with the enclosing
ambiguity flag: the types the search descends into next.  In Go an
embedded field is always a named type or a pointer to one. -/
def embeddedRefs (level : List (Bool × List StructField)) : List (Bool × String) :=
  (level.map (fun e => e.2.filterMap (fun f =>
    if f.anonymous then
      match stripPtr f.typ with
      | Ty.named n => some (e.1, n)
      | _ => none
    else none))).join

/-- The next breadth-first search level: visited types are skipped, a
type already scanned at a shallower depth contributes nothing, and a
type reachable twice at this depth — from two parents, or from a parent
itself flagged ambiguous — carries the ambiguity flag (reflect's
`nextCount[styp] = 2`). -/
def buildNext (env : Env) : List (Bool × String) → List String →
    List String × List (Bool × List StructField)
  | [], visited => (visited, [])
  | (d, n) :: rest, visited =>
    if visited.contains n then buildNext env rest visited
    else
      let dup := d || rest.any (fun e => e.2 = n)
      let step := buildNext env rest (n :: visited)
      match List.lookup n env with
      | none => step
      | some fs => (step.1, (dup, fs) :: step.2)

/-- reflect's `FieldByNameFunc` breadth-first search for one level and
below: the shallowest level holding a `_` field decides — a single
unambiguous match is returned, two matches at that level (or a match
inside a type reachable twice there) give no field — and only when a
level holds no match does the search descend into embedded struct
types.  Fuel bounds the depth; Go's visited set bounds it by the number
of named struct types, so enough fuel makes the two agree. -/
def findUnderscoreF (env : Env) : Nat → List String → List (Bool × List StructField) →
    Option StructField
  | 0, _, level =>
    match levelBlanks level with
    | [(false, f)] => some f
    | _ => none
  | fuel + 1, visited, level =>
    match levelBlanks level with
    | [(false, f)] => some f
    | [] =>
      match buildNext env (embeddedRefs level) visited with
      | (_, []) => none
      | (v, next) => findUnderscoreF env fuel v next
    | _ => none

/-- `typ.FieldByName("_")`: the record's additional-properties
escape-hatch carrier.  reflect promotes through embedded structs, so
the search starts at the record's declared fields and descends
breadth-first into embedded types. -/
def findUnderscore (env : Env) (fuel : Nat) (fields : List StructField) :
    Option StructField :=
  findUnderscoreF env fuel [] [(false, fields)]

/-- `schemaFor` (revision 2, the engine `tool.go` links against):
pointer indirection is transparent; the well-known leaf types
short-circuit; scalars map to fixed leaf schemas (unsigned integers with
`minimum: 0`, integers and floats with a width `format`); byte sequences
become base64 strings; arrays carry `minItems = maxItems = length`; maps
become objects whose `additionalProperties` is the value type's schema;
structs walk their flattened field list; any other kind yields an empty
schema.  This revision keeps no definitions registry, so a recursive
named struct consumes fuel without bound (`diverge`). -/
def schemaFor (env : Env) : Nat → Ty → Res Schema
  | 0, _ => .diverge
  | fuel + 1, t0 =>
    let structCase := fun (nameOpt : Option String) (fields : List StructField) =>
      match getFields env fuel nameOpt fields [] with
      | none => .diverge
      | some (allFields, _) =>
        match walkFields (schemaForField (schemaFor env fuel)) allFields [] [] [] with
        | .fail msg => .fail msg
        | .diverge => Res.diverge
        | .ok (props, required) =>
          match (match findUnderscore env fuel fields with
                 | some f =>
                   match tagLookup f.tags "additionalProperties" with
                   | some _ => boolTag f "additionalProperties"
                   | none => .ok false
                 | none => .ok false) with
          | .error msg => .fail msg
          | .ok additionalProps =>
            .ok (.mk { type := typeObject, required := required } none props
              (some (.inl additionalProps)))
    match stripPtr t0 with
    | .timeT => .ok (leaf { type := typeStringT, format := "date-time" })
    | .urlT => .ok (leaf { type := typeStringT, format := "uri" })
    | .ipT => .ok (leaf { type := typeStringT, format := "ipv4" })
    | .ipAddrT => .ok (leaf { type := typeStringT, format := "ipv4" })
    | .rawMsgT => .ok (leaf {})
    | .bool => .ok (leaf { type := typeBoolean })
    | .int k =>
      .ok (leaf { type := typeInteger
                  format := k.format
                  minimum := if k.unsigned then some 0 else none })
    | .f32 => .ok (leaf { type := typeNumber, format := "float" })
    | .f64 => .ok (leaf { type := typeNumber, format := "double" })
    | .str => .ok (leaf { type := typeStringT })
    | .slice elem =>
      match elem with
      | .int .u8 => .ok (leaf { type := typeStringT, contentEncoding := "base64" })
      | _ =>
        match schemaFor env fuel elem with
        | .ok itemSchema => .ok (.mk { type := typeArray } (some itemSchema) [] none)
        | .fail msg => .fail msg
        | .diverge => .diverge
    | .array n elem =>
      match elem with
      | .int .u8 => .ok (leaf { type := typeStringT, contentEncoding := "base64" })
      | _ =>
        match schemaFor env fuel elem with
        | .ok itemSchema =>
          .ok (.mk { type := typeArray
                     maxItems := some (Int.ofNat n)
                     minItems := some (Int.ofNat n) } (some itemSchema) [] none)
        | .fail msg => .fail msg
        | .diverge => .diverge
    | .mapT _ val =>
      match schemaFor env fuel val with
      | .ok valSchema => .ok (.mk { type := typeObject } none [] (some (.inr valSchema)))
      | .fail msg => .fail msg
      | .diverge => .diverge
    | .strukt fields => structCase none fields
    | .named s =>
      match List.lookup s env with
      | some fields => structCase (some s) fields
      | none => .fail ("unknown type: " ++ s)
    | .chanT _ | .funcT | .ifaceT | .complexT | .uintptrT | .unsafeT => .ok (leaf {})
    | .ptr _ => .ok (leaf {})

/-- `For` (revision 2): the panic-recovering entry point — panics are
already errors in the model, so it is `schemaFor` on the root type with
an empty definitions-free state. -/
def For (env : Env) (fuel : Nat) (t : Ty) : Res Schema :=
  schemaFor env fuel t

end schema2

namespace schema2

/-- Sort an encoded member list by key, as `encoding/json` marshals a Go
map (keys byte-sorted; on ASCII the character order used here agrees). -/
def sortPairs (l : List (String × JAny)) : List (String × JAny) :=
  List.insertionSort (fun a b => a.1.data ≤ b.1.data) l

/-- An optional rational member (`*float64` with `omitempty`). -/
def encOptQ (key : String) : Option ℚ → List (String × JAny)
  | none => []
  | some q => [(key, .num q)]

/-- An optional integer member (`*int` with `omitempty`). -/
def encOptI (key : String) : Option Int → List (String × JAny)
  | none => []
  | some n => [(key, .num (Rat.divInt n 1))]

/-- A string member omitted when empty. -/
def encStr (key s : String) : List (String × JAny) :=
  if s = "" then [] else [(key, .str s)]

/-- The `Items` member of the marshalled document (given the already
encoded child). -/
def encItems : Option JAny → List (String × JAny)
  | some j => [("items", j)]
  | none => []

/-- The `Properties` member of the marshalled document (given the
already encoded children): maps marshal key-sorted, empty maps are
omitted. -/
def encProps (l : List (String × JAny)) : List (String × JAny) :=
  if l.isEmpty then [] else [("properties", .obj (sortPairs l))]

/-- The `AdditionalProperties` member (an `any` member: omitted only
when nil, so an explicit `false` is emitted). -/
def encAP : Option (Bool ⊕ JAny) → List (String × JAny)
  | none => []
  | some (.inl b) => [("additionalProperties", .bool b)]
  | some (.inr j) => [("additionalProperties", j)]

/-- A JSON-array member omitted when empty. -/
def encList (key : String) (l : List JAny) : List (String × JAny) :=
  if l.isEmpty then [] else [(key, .arr l)]

/-- A boolean member omitted when false (`omitempty` on a `bool`). -/
def encBool (key : String) (b : Bool) : List (String × JAny) :=
  if b then [(key, .bool true)] else []

/-- `json.Marshal` of a revision-2 `Schema`, producing the JSON document
tree: members appear in the struct's declared field order, `omitempty`
members are dropped at their zero values, the `Properties` map marshals
key-sorted, and `AdditionalProperties` (an `any` member) is emitted
whenever non-nil — in particular an explicit `false`. -/
def encodeF : Nat → Schema → JAny
  | 0, _ => .null
  | fuel + 1, .mk c items props ap =>
    .obj (
      encItems (items.map (encodeF fuel))
      ++ encProps (props.map (fun kv => (kv.1, encodeF fuel kv.2)))
      ++ encAP (ap.map (Sum.map id (encodeF fuel)))
      ++ encStr "type" c.type
      ++ encList "enum" c.enum
      ++ encOptQ "multipleOf" c.multipleOf
      ++ encOptQ "maximum" c.maximum
      ++ encOptQ "exclusiveMaximum" c.exclusiveMaximum
      ++ encOptQ "minimum" c.minimum
      ++ encOptQ "exclusiveMinimum" c.exclusiveMinimum
      ++ encOptI "maxLength" c.maxLength
      ++ encOptI "minLength" c.minLength
      ++ encStr "pattern" c.pattern
      ++ encOptI "maxItems" c.maxItems
      ++ encOptI "minItems" c.minItems
      ++ encBool "uniqueItems" c.uniqueItems
      ++ encOptI "maxProperties" c.maxProperties
      ++ encOptI "minProperties" c.minProperties
      ++ encList "required" (c.required.map JAny.str)
      ++ encStr "format" c.format
      ++ encStr "contentEncoding" c.contentEncoding
      ++ encStr "title" c.title
      ++ encStr "description" c.description
      ++ encList "examples" c.examples)

/-- `json.Marshal` of a revision-2 `Schema` (fixed fuel covering any
schema the walker can produce). -/
def encode (s : Schema) : JAny :=
  encodeF 1000000 s

/-- The marshalled document as bytes (compact JSON text). -/
def renderDoc (s : Schema) : String :=
  jrender (encode s)

/-- Look up a member of an encoded JSON object. -/
def memberOf (j : JAny) (key : String) : Option JAny :=
  match j with
  | .obj members => List.lookup key members
  | _ => none

end schema2

namespace schema1

/-- Revision 1's `Schema.Type` is an `any`: unset (`nil`), a single type
name, or the `[]string{T, "null"}` pair `fieldTags` writes for optional
fields. -/
inductive TypeV where
  | unset : TypeV
  | s (v : String) : TypeV
  | withNull (v : String) : TypeV
  deriving DecidableEq

/-- Does the `Type` member hold exactly this type name?  (Go's `==`
between an `any` and a string.) -/
def TypeV.isStr : TypeV → String → Bool
  | .s v, x => v = x
  | _, _ => false

/-- `fmt.Sprint` of the `Type` member. -/
def TypeV.sprint : TypeV → String
  | .unset => "<nil>"
  | .s v => v
  | .withNull v => "[" ++ v ++ " null]"

/-- The `%s` rendering of the `Type` member inside error messages. -/
def TypeV.fmtS : TypeV → String
  | .unset => "%!s(<nil>)"
  | .s v => v
  | .withNull v => "[" ++ v ++ " null]"

/-- The non-recursive fields of revision 1's `Schema` struct. -/
structure Core where
  ref : String := ""
  type : TypeV := .unset
  enum : List JAny := []
  required : List String := []
  additionalProperties : Option Bool := none
  format : String := ""
  contentEncoding : String := ""
  title : String := ""
  description : String := ""

/-- Revision 1's `Schema`: core fields plus `$defs`, `items` and
`properties`. -/
inductive Schema where
  | mk (core : Core) (definitions : List (String × Schema))
      (items : Option Schema) (properties : List (String × Schema)) : Schema

/-- The schema's non-recursive core. -/
def Schema.core : Schema → Core
  | .mk c _ _ _ => c

/-- The schema's `$defs` table. -/
def Schema.definitions : Schema → List (String × Schema)
  | .mk _ d _ _ => d

/-- The schema's `items` child. -/
def Schema.items : Schema → Option Schema
  | .mk _ _ i _ => i

/-- The schema's `properties` map (as an association list). -/
def Schema.properties : Schema → List (String × Schema)
  | .mk _ _ _ p => p

/-- The schema's `$ref`. -/
def Schema.ref (s : Schema) : String :=
  s.core.ref

/-- The schema's `type` member. -/
def Schema.type (s : Schema) : TypeV :=
  s.core.type

/-- The schema's `required` list. -/
def Schema.required (s : Schema) : List String :=
  s.core.required

/-- Rewrite the schema's core. -/
def Schema.mapCore (f : Core → Core) : Schema → Schema
  | .mk c d i p => .mk (f c) d i p

/-- A schema that is only a `$ref`. -/
def refSchema (r : String) : Schema :=
  .mk { ref := r } [] none []

/-- A schema with no recursive members. -/
def leaf (c : Core) : Schema :=
  .mk c [] none []

/-- The per-call definitions registry: `map[string]*Schema` keyed by
`typ.String()`.  The association list stores, for each registered named
struct, the node the registry's pointer reaches: `{Ref: "#"}` for the
type registered while the registry was empty, and the (eventually
completed) struct schema otherwise.  During the walk only the pending
node's empty `Ref` is ever observed, so storing the completed node is
faithful. -/
abbrev Defs := List (String × Schema)

/-- Bind a key in an association list (replace an existing binding, else
append). -/
def upsert (key : String) (v : Schema) : Defs → Defs
  | [] => [(key, v)]
  | (k, w) :: rest =>
    if k = key then (k, v) :: rest
    else (k, w) :: upsert key v rest

/-- Remove a key (Go's `delete`). -/
def eraseKey (key : String) (l : Defs) : Defs :=
  l.filter (fun kv => kv.1 ≠ key)

/-- `ensureType`'s element loop (revision 1). -/
def ensureItems (et : String → String → JAny → Except String Unit)
    (fieldName : String) : List JAny → Nat → Except String Unit
  | [], _ => .ok ()
  | item :: rest, i =>
    match et (fieldName ++ "[" ++ toString i ++ "]") (jrender item) item with
    | .error msg => .error msg
    | .ok _ => ensureItems et fieldName rest (i + 1)

/-- `ensureType`'s property loop (revision 1). -/
def ensureProps (et : Schema → String → String → JAny → Except String Unit)
    (fieldName : String) (members : List (String × JAny)) :
    List (String × Schema) → Except String Unit
  | [] => .ok ()
  | (name, prop) :: rest =>
    match List.lookup name members with
    | some v =>
      match et prop (fieldName ++ "." ++ name) (jrender v) v with
      | .error msg => .error msg
      | .ok _ => ensureProps et fieldName members rest
    | none => ensureProps et fieldName members rest

/-- `ensureType` (revision 1): identical dispatch to revision 2's, over
this revision's `Type` member. -/
def ensureType : Nat → String → Schema → String → JAny → Except String Unit
  | 0, _, _, _, _ => .error "schema nested too deeply"
  | fuel + 1, fieldName, schema, value, tagValue =>
    if schema.type.isStr typeBoolean then
      match tagValue with
      | .bool _ => .ok ()
      | _ => .error ("invalid boolean tag value '" ++ value ++ "' for field '" ++ fieldName ++ "'")
    else if schema.type.isStr typeNumber then
      match tagValue with
      | .num _ => .ok ()
      | _ => .error ("invalid number tag value '" ++ value ++ "' for field '" ++ fieldName ++ "'")
    else if schema.type.isStr typeInteger then
      match tagValue with
      | .num q =>
        if q.den = 1 then .ok ()
        else .error ("invalid integer tag value '" ++ value ++ "' for field '" ++ fieldName ++ "'")
      | _ => .error ("invalid integer tag value '" ++ value ++ "' for field '" ++ fieldName ++ "'")
    else if schema.type.isStr typeStringT then
      match tagValue with
      | .str _ => .ok ()
      | _ => .error ("invalid string tag value '" ++ value ++ "' for field '" ++ fieldName ++ "'")
    else if schema.type.isStr typeArray then
      match tagValue with
      | .arr items =>
        match schema.items with
        | some itemSchema =>
          ensureItems (fun fn v j => ensureType fuel fn itemSchema v j) fieldName items 0
        | none => .ok ()
      | _ => .error ("invalid array tag value '" ++ value ++ "' for field '" ++ fieldName ++ "'")
    else if schema.type.isStr typeObject then
      match tagValue with
      | .obj members =>
        ensureProps (fun prop fn v j => ensureType fuel fn prop v j) fieldName members
          schema.properties
      | _ => .error ("invalid object tag value '" ++ value ++ "' for field '" ++ fieldName ++ "'")
    else .ok ()

/-- `jsonTagValue` (revision 1): as revision 2's, over this revision's
`Type` member. -/
def jsonTagValue (fieldName : String) (schema : Schema) (value : String) :
    Except String JAny :=
  let parseAndCheck : Except String JAny :=
    match jsonUnmarshal value with
    | .error e =>
      .error ("invalid " ++ schema.type.fmtS ++ " tag value '" ++ value ++ "' for field '" ++
        fieldName ++ "': " ++ e)
    | .ok v =>
      match ensureType 1000000 fieldName schema value v with
      | .error e => .error e
      | .ok _ => .ok v
  if schema.type.isStr typeStringT then .ok (.str value)
  else if schema.type.isStr typeArray &&
      (match schema.items with
       | some it => it.type.isStr typeStringT
       | none => false) then
    match value.data with
    | [] => .error "runtime error: index out of range [0] with length 0"
    | c :: _ =>
      if c = '[' then parseAndCheck
      else .ok (.arr ((goSplitComma value).map (fun s => .str (goTrimSpace s))))
  else parseAndCheck

/-- Coerce each literal of an `enum` tag (revision 1). -/
def coerceEnum (fieldName : String) (schema : Schema) : List String → Except String (List JAny)
  | [] => .ok []
  | v :: rest =>
    match jsonTagValue fieldName schema v with
    | .error msg => .error msg
    | .ok e =>
      match coerceEnum fieldName schema rest with
      | .error msg => .error msg
      | .ok es => .ok (e :: es)

/-- `fieldTags` (revision 1): description and encoding overrides, the
`enum` literal list, and — for non-`$ref` field schemas — the
required-ness resolution that rewrites the `type` of an optional field
into `[T, "null"]` (default required; the text "omitempty" inside the
`json` tag makes it optional; an explicit `required` tag overrides). -/
def fieldTags (f : StructField) (s0 : Schema) : Except String Schema := do
  let s1 :=
    if tagGet f.tags "description" ≠ "" then
      s0.mapCore (fun c => { c with description := tagGet f.tags "description" }) else s0
  let s2 :=
    if tagGet f.tags "encoding" ≠ "" then
      s1.mapCore (fun c => { c with contentEncoding := tagGet f.tags "encoding" }) else s1
  let s3 ←
    if tagGet f.tags "enum" ≠ "" then
      let parts := goSplitComma (tagGet f.tags "enum")
      if s2.type.isStr typeArray then
        match s2.items with
        | some itemSchema => do
          let vals ← coerceEnum f.name itemSchema parts
          pure (Schema.mk s2.core s2.definitions
            (some (itemSchema.mapCore (fun c => { c with enum := vals }))) s2.properties)
        | none =>
          .error "runtime error: invalid memory address or nil pointer dereference"
      else do
        let vals ← coerceEnum f.name s2 parts
        pure (s2.mapCore (fun c => { c with enum := vals }))
    else pure s2
  if s3.ref = "" then do
    let baseRequired := !(goContains (tagGet f.tags "json") "omitempty")
    let fieldRequired ←
      match tagLookup f.tags "required" with
      | some _ => boolTag f "required"
      | none => pure baseRequired
    if fieldRequired then pure s3
    else pure (s3.mapCore (fun c => { c with type := .withNull c.type.sprint }))
  else pure s3

/-- The field loop of revision 1's struct case: the same
declared-name-keyed shadowing and `json`-tag naming as revision 2, but
every kept field joins `required` (optionality shows in its `type`
instead), and the definitions registry threads through the per-field
schema derivations. -/
def walkFields (handle : StructField → Defs → Res (Schema × Defs)) :
    List StructField → List String → List (String × Schema) → List String → Defs →
    Res ((List (String × Schema) × List String) × Defs)
  | [], _, props, required, defs => .ok ((props, required), defs)
  | f :: rest, fieldSet, props, required, defs =>
    if fieldSet.contains f.name then walkFields handle rest fieldSet props required defs
    else
      let fieldSet := f.name :: fieldSet
      let n0 := goCutComma (tagGet f.tags "json")
      if n0 = "-" then walkFields handle rest fieldSet props required defs
      else
        let name := if n0 = "" then f.name else n0
        match handle f defs with
        | .fail msg => .fail msg
        | .diverge => .diverge
        | .ok (fs, defs2) =>
          walkFields handle rest fieldSet (upsert name fs props) (required ++ [name]) defs2

/-- `schemaFor` (revision 1, the engine `internal/schema/schema_test.go`
exercises): pointer indirection is transparent; a type already in the
definitions registry returns without walking (its registered node when
that node is a reference, else a `$defs` reference to it — the deferred
rewrite); scalars map to bare type tags; byte sequences to base64
strings; slices and arrays to unbounded array schemas; a named struct
registers itself before walking its fields (`{ "$ref": "#" }` when the
registry is empty, a pending node otherwise); and any other kind —
including maps — panics `unsupported type`. -/
def schemaFor (env : Env) : Nat → Ty → Defs → Res (Schema × Defs)
  | 0, _, _ => .diverge
  | fuel + 1, t0, defs =>
    let t := stripPtr t0
    -- The deferred rewrite: a named object schema whose registry entry is
    -- still `Ref == ""` is replaced by a reference into `$defs`.
    let wrap := fun (d : Schema) (defsExit : Defs) =>
      if d.type.isStr typeObject && hasName t then
        match List.lookup (typeString t) defsExit with
        | some e => if e.ref = "" then refSchema ("#/$defs/" ++ typeString t) else d
        | none => d
      else d
    match List.lookup (typeString t) defs with
    | some e => .ok (wrap e defs, defs)
    | none =>
      let structCase := fun (nameOpt : Option String) (fields : List StructField) =>
        let key := typeString t
        let registered := hasName t
        let pending : Schema :=
          .mk { type := .s typeObject, additionalProperties := some false } [] none []
        let defs1 :=
          if registered then
            if defs.isEmpty then upsert key (refSchema "#") defs
            else upsert key pending defs
          else defs
        match getFields env fuel nameOpt fields [] with
        | none => Res.diverge
        | some (allFields, _) =>
          let handle := fun (f : StructField) (d : Defs) =>
            match schemaFor env fuel f.typ d with
            | .ok (fs, d2) => (Res.ofExcept (fieldTags f fs)).map (fun fs2 => (fs2, d2))
            | .fail msg => .fail msg
            | .diverge => .diverge
          match walkFields handle allFields [] [] [] defs1 with
          | .fail msg => .fail msg
          | .diverge => Res.diverge
          | .ok ((props, required), defs2) =>
            let built : Schema :=
              .mk { type := .s typeObject, additionalProperties := some false,
                    required := required } [] none props
            let defs3 :=
              if registered && !defs.isEmpty then upsert key built defs2 else defs2
            .ok (wrap built defs3, defs3)
      match t with
      | .bool => .ok (leaf { type := .s typeBoolean }, defs)
      | .int _ => .ok (leaf { type := .s typeInteger }, defs)
      | .f32 => .ok (leaf { type := .s typeNumber }, defs)
      | .f64 => .ok (leaf { type := .s typeNumber }, defs)
      | .str => .ok (leaf { type := .s typeStringT }, defs)
      | .ipT => .ok (leaf { type := .s typeStringT, contentEncoding := "base64" }, defs)
      | .rawMsgT => .ok (leaf { type := .s typeStringT, contentEncoding := "base64" }, defs)
      | .slice elem =>
        match elem with
        | .int .u8 => .ok (leaf { type := .s typeStringT, contentEncoding := "base64" }, defs)
        | _ =>
          match schemaFor env fuel elem defs with
          | .ok (itemSchema, defs2) =>
            .ok (.mk { type := .s typeArray } [] (some itemSchema) [], defs2)
          | .fail msg => .fail msg
          | .diverge => .diverge
      | .array _ elem =>
        match elem with
        | .int .u8 => .ok (leaf { type := .s typeStringT, contentEncoding := "base64" }, defs)
        | _ =>
          match schemaFor env fuel elem defs with
          | .ok (itemSchema, defs2) =>
            .ok (.mk { type := .s typeArray } [] (some itemSchema) [], defs2)
          | .fail msg => .fail msg
          | .diverge => .diverge
      | .strukt fields => structCase none fields
      | .named s =>
        match List.lookup s env with
        | some fields => structCase (some s) fields
        | none => .fail ("unknown type: " ++ s)
      | .timeT => structCase (some "time.Time") []
      | .urlT => structCase (some "url.URL") []
      | .ipAddrT => structCase (some "netip.Addr") []
      | _ => .fail ("unsupported type: " ++ typeString t)

/-- `For` (revision 1): derive the root type's schema with a fresh
registry, delete the root type's own entry (the root is addressed as
`"#"`; the deletion key is the original, un-dereferenced type's string),
and attach the remaining registry, if non-empty, as `$defs`. -/
def For (env : Env) (fuel : Nat) (t : Ty) : Res Schema :=
  match schemaFor env fuel t [] with
  | .ok (schema, defs) =>
    let defs := eraseKey (typeString t) defs
    if defs.isEmpty then .ok schema
    else .ok (.mk schema.core defs schema.items schema.properties)
  | .fail msg => .fail msg
  | .diverge => .diverge

end schema1

namespace schema1

/-- Sort an encoded member list by key (`encoding/json` map marshalling). -/
def sortPairs (l : List (String × JAny)) : List (String × JAny) :=
  List.insertionSort (fun a b => a.1.data ≤ b.1.data) l

/-- A string member omitted when empty. -/
def encStr (key s : String) : List (String × JAny) :=
  if s = "" then [] else [(key, .str s)]

/-- `json.Marshal` of a revision-1 `Schema`: members in the struct's
declared field order with `omitempty`, maps key-sorted, and the `Type`
member either a string or the `["T","null"]` pair. -/
def encodeF : Nat → Schema → JAny
  | 0, _ => .null
  | fuel + 1, .mk c defs items props =>
    .obj (
      encStr "$ref" c.ref
      ++ (if defs.isEmpty then []
          else [("$defs", .obj (sortPairs (defs.map (fun kv => (kv.1, encodeF fuel kv.2)))))])
      ++ (match items with
          | some i => [("items", encodeF fuel i)]
          | none => [])
      ++ (if props.isEmpty then []
          else [("properties",
            .obj (sortPairs (props.map (fun kv => (kv.1, encodeF fuel kv.2)))))])
      ++ (match c.additionalProperties with
          | none => []
          | some b => [("additionalProperties", .bool b)])
      ++ (match c.type with
          | .unset => []
          | .s v => [("type", .str v)]
          | .withNull v => [("type", .arr [.str v, .str "null"])])
      ++ (if c.enum.isEmpty then [] else [("enum", .arr c.enum)])
      ++ (if c.required.isEmpty then []
          else [("required", .arr (c.required.map JAny.str))])
      ++ encStr "format" c.format
      ++ encStr "contentEncoding" c.contentEncoding
      ++ encStr "title" c.title
      ++ encStr "description" c.description)

/-- `json.Marshal` of a revision-1 `Schema`. -/
def encode (s : Schema) : JAny :=
  encodeF 1000000 s

/-- The marshalled document as bytes. -/
def renderDoc (s : Schema) : String :=
  jrender (encode s)

end schema1

/-- The kinds outside the claim's supported list (channel, function,
interface, complex, `uintptr`, `unsafe.Pointer`): the walkers' `default`
arms. -/
def isUnsupportedKind : Ty → Bool
  | .chanT _ | .funcT | .ifaceT | .complexT | .uintptrT | .unsafeT => true
  | _ => false

/-- The schema revision 2 derives for a plain `string` field. -/
def stringSchema : schema2.Schema :=
  schema2.leaf { type := typeStringT }

/-- The spec's reading of "the serialization tag carries the
omit-if-empty modifier": `omitempty` is among the comma-separated
options following the name in the `json` tag (modelled from the spec's
words, for comparison with the code's criterion). -/
def specCarriesOmitempty (jsonTag : String) : Bool :=
  match goSplitComma jsonTag with
  | [] => false
  | _ :: opts => opts.contains "omitempty"

-- development sanity checks
example : goSplitComma "1,2,3" = ["1", "2", "3"] := by decide
example : goContains "a,omitempty" "omitempty" = true := by decide
example : goContains "omitemp" "omitempty" = false := by decide
example : goCutComma "value,omitempty" = "value" := by decide
example : jsonUnmarshal "1" = .ok (.num 1) := by rfl
example : jsonUnmarshal "true" = .ok (.bool true) := by rfl
example : jsonUnmarshal "[1,2]" = .ok (.arr [.num 1, .num 2]) := by rfl
example : jsonUnmarshal "1.23" = .ok (.num (Rat.divInt 123 100)) := by rfl
example : jsonUnmarshal "\x7b\"foo\": true\x7d" = .ok (.obj [("foo", .bool true)]) := by rfl
example : jrender (.arr [.num 1, .bool true]) = "[1,true]" := by decide
example : jrender (.num (Rat.divInt 123 100)) = "1.23" := by decide
example : jrender (.obj [("a", .null)]) = "\x7b\"a\":null\x7d" := by decide

section DevChecks
-- development sanity checks against internal/schema/schema_test.go
-- (richer-revision variant) expectations

example :
    schema2.For [] 10 Ty.bool = .ok (schema2.leaf { type := typeBoolean }) := by rfl

example :
    schema2.renderDoc (schema2.leaf { type := typeBoolean }) = "\x7b\"type\":\"boolean\"\x7d" := by
  decide

example :
    (schema2.For [] 10 (Ty.int .i)).map schema2.renderDoc =
      .ok "\x7b\"type\":\"integer\",\"format\":\"int64\"\x7d" := by decide

example :
    (schema2.For [] 10 (Ty.int .u)).map schema2.renderDoc =
      .ok "\x7b\"type\":\"integer\",\"minimum\":0,\"format\":\"int64\"\x7d" := by decide

example :
    (schema2.For [] 10 (Ty.slice (Ty.int .u8))).map schema2.renderDoc =
      .ok "\x7b\"type\":\"string\",\"contentEncoding\":\"base64\"\x7d" := by decide

example :
    (schema2.For [] 10 (Ty.array 2 (Ty.int .i))).map schema2.renderDoc =
      .ok ("\x7b\"items\":\x7b\"type\":\"integer\",\"format\":\"int64\"\x7d," ++
        "\"type\":\"array\",\"maxItems\":2,\"minItems\":2\x7d") := by decide

example :
    (schema2.For [] 10 (Ty.mapT Ty.str Ty.str)).map schema2.renderDoc =
      .ok "\x7b\"additionalProperties\":\x7b\"type\":\"string\"\x7d,\"type\":\"object\"\x7d" := by
  decide

-- the "field-int" test: bounds tags on an int field
example :
    (schema2.For [] 10 (Ty.strukt [StructField.mk "Value" (Ty.int .i)
        [("json", "value"), ("minimum", "1"), ("exclusiveMinimum", "0"), ("maximum", "10"),
         ("exclusiveMaximum", "11"), ("multipleOf", "2")] false true])).map schema2.renderDoc =
      .ok ("\x7b\"properties\":\x7b\"value\":\x7b\"type\":\"integer\",\"multipleOf\":2," ++
        "\"maximum\":10,\"exclusiveMaximum\":11,\"minimum\":1,\"exclusiveMinimum\":0," ++
        "\"format\":\"int64\"\x7d\x7d,\"additionalProperties\":false,\"type\":\"object\"," ++
        "\"required\":[\"value\"]\x7d") := by decide

-- the "field-enum" test
example :
    (schema2.For [] 10 (Ty.strukt [StructField.mk "Value" Ty.str
        [("json", "value"), ("enum", "one,two")] false true])).map schema2.renderDoc =
      .ok ("\x7b\"properties\":\x7b\"value\":\x7b\"type\":\"string\"," ++
        "\"enum\":[\"one\",\"two\"]\x7d\x7d,\"additionalProperties\":false," ++
        "\"type\":\"object\",\"required\":[\"value\"]\x7d") := by decide

-- the "field-array-enum" test
example :
    (schema2.For [] 10 (Ty.strukt [StructField.mk "Value" (Ty.slice (Ty.int .i))
        [("json", "value"), ("enum", "1,2,3,5,8,11")] false true])).map schema2.renderDoc =
      .ok ("\x7b\"properties\":\x7b\"value\":\x7b\"items\":\x7b\"type\":\"integer\"," ++
        "\"enum\":[1,2,3,5,8,11],\"format\":\"int64\"\x7d,\"type\":\"array\"\x7d\x7d," ++
        "\"additionalProperties\":false,\"type\":\"object\",\"required\":[\"value\"]\x7d") := by
  decide

-- the "field-example-array-string" test
example :
    (schema2.For [] 10 (Ty.strukt [StructField.mk "Value" (Ty.slice Ty.str)
        [("json", "value"), ("example", "foo,bar")] false true])).map schema2.renderDoc =
      .ok ("\x7b\"properties\":\x7b\"value\":\x7b\"items\":\x7b\"type\":\"string\"\x7d," ++
        "\"type\":\"array\",\"examples\":[[\"foo\",\"bar\"]]\x7d\x7d," ++
        "\"additionalProperties\":false,\"type\":\"object\",\"required\":[\"value\"]\x7d") := by
  decide

-- the "additionalProps" escape-hatch test
example :
    (schema2.For [] 10 (Ty.strukt
        [StructField.mk "_" (Ty.strukt []) [("json", "-"), ("additionalProperties", "true")]
           false false,
         StructField.mk "Value" Ty.str [("json", "value")] false true])).map schema2.renderDoc =
      .ok ("\x7b\"properties\":\x7b\"value\":\x7b\"type\":\"string\"\x7d\x7d," ++
        "\"additionalProperties\":true,\"type\":\"object\",\"required\":[\"value\"]\x7d") := by
  decide

-- the "field-embed" test: embedded fields merged after declared ones
example :
    (schema2.For
        [("main.EmbeddedChild",
          [StructField.mk "Value" Ty.str [("json", "value"), ("description", "old doc")]
             false true]),
         ("main.Embedded",
          [StructField.mk "EmbeddedChild" (Ty.named "main.EmbeddedChild") [] true true,
           StructField.mk "Value" Ty.str [("json", "value"), ("description", "new doc")]
             false true])]
        10
        (Ty.strukt
          [StructField.mk "Embedded" (Ty.ptr (Ty.named "main.Embedded")) [] true true,
           StructField.mk "Value2" Ty.str [("json", "value2")] false true])).map
        schema2.renderDoc =
      .ok ("\x7b\"properties\":\x7b\"value\":\x7b\"type\":\"string\"," ++
        "\"description\":\"new doc\"\x7d,\"value2\":\x7b\"type\":\"string\"\x7d\x7d," ++
        "\"additionalProperties\":false,\"type\":\"object\"," ++
        "\"required\":[\"value2\",\"value\"]\x7d") := by decide

-- the "error-bool" test
example :
    schema2.For [] 10 (Ty.strukt [StructField.mk "Value" Ty.str
        [("json", "value"), ("required", "bad")] false true]) =
      .fail "invalid bool tag 'required' for field 'Value': bad" := by rfl

-- the "error-json-int" test
example :
    schema2.For [] 10 (Ty.strukt [StructField.mk "Value" (Ty.int .i)
        [("json", "value"), ("example", "true")] false true]) =
      .fail "invalid integer tag value 'true' for field 'Value'" := by rfl

-- the "error-json-object-field" test: nested property path in the error
example :
    schema2.For [] 10 (Ty.strukt [StructField.mk "Value"
        (Ty.strukt [StructField.mk "Foo" Ty.str [("json", "foo")] false true])
        [("json", "value"), ("example", "\x7b\"foo\": true\x7d")] false true]) =
      .fail "invalid string tag value 'true' for field 'Value.foo'" := by rfl

end DevChecks

section DevChecksV1
-- development sanity checks against internal/schema/schema_test.go
-- (current revision's test) expectations

example :
    (schema1.For [] 10 Ty.bool).map schema1.renderDoc =
      .ok "\x7b\"type\":\"boolean\"\x7d" := by decide

example :
    (schema1.For [] 10 (Ty.ptr Ty.bool)).map schema1.renderDoc =
      .ok "\x7b\"type\":\"boolean\"\x7d" := by decide

example :
    (schema1.For [] 10 (Ty.int .u64)).map schema1.renderDoc =
      .ok "\x7b\"type\":\"integer\"\x7d" := by decide

example :
    (schema1.For [] 10 (Ty.slice (Ty.int .i))).map schema1.renderDoc =
      .ok "\x7b\"items\":\x7b\"type\":\"integer\"\x7d,\"type\":\"array\"\x7d" := by decide

-- "error-unsupported": maps are a hard failure in this revision
example :
    schema1.For [] 10 (Ty.mapT Ty.str Ty.str) =
      .fail "unsupported type: map[string]string" := by rfl

-- "field-optional-without-name": omitempty rewrites the type, keeps required
example :
    (schema1.For [] 10 (Ty.strukt [StructField.mk "Value" Ty.str
        [("json", ",omitempty")] false true])).map schema1.renderDoc =
      .ok ("\x7b\"properties\":\x7b\"Value\":\x7b\"type\":[\"string\",\"null\"]\x7d\x7d," ++
        "\"additionalProperties\":false,\"type\":\"object\",\"required\":[\"Value\"]\x7d") := by
  decide

-- "field-self": a self-referential named struct as the derivation root
example :
    (schema1.For
        [("schema_test.RecursiveChildKey",
          [StructField.mk "Key" Ty.str [("json", "key")] false true,
           StructField.mk "Self" (Ty.ptr (Ty.named "schema_test.RecursiveChildKey"))
             [("json", "self,omitempty")] false true])]
        20 (Ty.named "schema_test.RecursiveChildKey")).map schema1.renderDoc =
      .ok ("\x7b\"properties\":\x7b\"key\":\x7b\"type\":\"string\"\x7d," ++
        "\"self\":\x7b\"$ref\":\"#\"\x7d\x7d," ++
        "\"additionalProperties\":false,\"type\":\"object\"," ++
        "\"required\":[\"key\",\"self\"]\x7d") := by decide

-- "field-embed-override": same declared name, embedded field dropped
example :
    (schema1.For
        [("schema_test.EmbeddedChild",
          [StructField.mk "Value" Ty.str [("json", "value"), ("description", "old doc")]
             false true]),
         ("schema_test.Embedded",
          [StructField.mk "EmbeddedChild" (Ty.named "schema_test.EmbeddedChild") [] true true,
           StructField.mk "Value" Ty.str [("json", "value"), ("description", "new doc")]
             false true])]
        20
        (Ty.strukt
          [StructField.mk "Embedded" (Ty.named "schema_test.Embedded") [] true true,
           StructField.mk "Value" Ty.str [("json", "override"), ("description", "override")]
             false true])).map schema1.renderDoc =
      .ok ("\x7b\"properties\":\x7b\"override\":\x7b\"type\":\"string\"," ++
        "\"description\":\"override\"\x7d\x7d," ++
        "\"additionalProperties\":false,\"type\":\"object\",\"required\":[\"override\"]\x7d") := by
  decide

end DevChecksV1

section DevChecksV1Ref

-- the "field-ref" test: a cyclic graph of named structs
example :
    (schema1.For
        [("schema_test.RecursiveChildKey",
          [StructField.mk "Key" Ty.str [("json", "key")] false true,
           StructField.mk "Self" (Ty.ptr (Ty.named "schema_test.RecursiveChildKey"))
             [("json", "self,omitempty")] false true]),
         ("schema_test.RecursiveChild",
          [StructField.mk "RecursiveChildLoop" (Ty.named "schema_test.RecursiveChildLoop")
             [] true true]),
         ("schema_test.RecursiveChildLoop",
          [StructField.mk "RecursiveChild" (Ty.ptr (Ty.named "schema_test.RecursiveChild"))
             [] true true,
           StructField.mk "Slice" (Ty.slice (Ty.ptr (Ty.named "schema_test.RecursiveChildLoop")))
             [("json", "slice")] false true,
           StructField.mk "Array" (Ty.array 1 (Ty.ptr (Ty.named "schema_test.RecursiveChildLoop")))
             [("json", "array")] false true,
           StructField.mk "ByValue" (Ty.named "schema_test.RecursiveChildKey")
             [("json", "byValue")] false true,
           StructField.mk "ByRef" (Ty.ptr (Ty.named "schema_test.RecursiveChildKey"))
             [("json", "byRef")] false true])]
        30 (Ty.named "schema_test.RecursiveChild")).map schema1.renderDoc =
      .ok ("\x7b\"$defs\":\x7b" ++
        "\"schema_test.RecursiveChildKey\":\x7b\"properties\":\x7b" ++
          "\"key\":\x7b\"type\":\"string\"\x7d," ++
          "\"self\":\x7b\"$ref\":\"#/$defs/schema_test.RecursiveChildKey\"\x7d\x7d," ++
          "\"additionalProperties\":false,\"type\":\"object\"," ++
          "\"required\":[\"key\",\"self\"]\x7d," ++
        "\"schema_test.RecursiveChildLoop\":\x7b\"properties\":\x7b" ++
          "\"array\":\x7b\"items\":\x7b\"$ref\":\"#/$defs/schema_test.RecursiveChildLoop\"\x7d," ++
            "\"type\":\"array\"\x7d," ++
          "\"byRef\":\x7b\"$ref\":\"#/$defs/schema_test.RecursiveChildKey\"\x7d," ++
          "\"byValue\":\x7b\"$ref\":\"#/$defs/schema_test.RecursiveChildKey\"\x7d," ++
          "\"slice\":\x7b\"items\":\x7b\"$ref\":\"#/$defs/schema_test.RecursiveChildLoop\"\x7d," ++
            "\"type\":\"array\"\x7d\x7d," ++
          "\"additionalProperties\":false,\"type\":\"object\"," ++
          "\"required\":[\"slice\",\"array\",\"byValue\",\"byRef\"]\x7d\x7d," ++
        "\"properties\":\x7b" ++
          "\"array\":\x7b\"items\":\x7b\"$ref\":\"#/$defs/schema_test.RecursiveChildLoop\"\x7d," ++
            "\"type\":\"array\"\x7d," ++
          "\"byRef\":\x7b\"$ref\":\"#/$defs/schema_test.RecursiveChildKey\"\x7d," ++
          "\"byValue\":\x7b\"$ref\":\"#/$defs/schema_test.RecursiveChildKey\"\x7d," ++
          "\"slice\":\x7b\"items\":\x7b\"$ref\":\"#/$defs/schema_test.RecursiveChildLoop\"\x7d," ++
            "\"type\":\"array\"\x7d\x7d," ++
        "\"additionalProperties\":false,\"type\":\"object\"," ++
        "\"required\":[\"slice\",\"array\",\"byValue\",\"byRef\"]\x7d") := by decide

end DevChecksV1Ref

/-- C1: evaluation at the failing input.  The claim says a
self-referential record's self-reference is encoded `{"$ref": "#"}` only
when the record is the derivation root, and `#/$defs/<name>` otherwise.
Deriving `[]main.S` (a slice as root, `S` self-referential, so `S` is
*not* the root) shows revision 1 registering `S` as `"#"` anyway — the
code tests `len(definitions) == 0`, a proxy for root-ness that is wrong
for container roots — leaving a degenerate `$defs` entry
`{"$ref": "#"}` and encoding the non-root self-reference as `"#"`. -/
theorem claim_C1_slice_root_eval :
    (schema1.For [("main.S",
        [StructField.mk "Self" (Ty.ptr (Ty.named "main.S")) [("json", "self")] false true])]
        20 (Ty.slice (Ty.named "main.S"))).map schema1.renderDoc =
      .ok ("\x7b\"$defs\":\x7b\"main.S\":\x7b\"$ref\":\"#\"\x7d\x7d," ++
        "\"items\":\x7b\"properties\":\x7b\"self\":\x7b\"$ref\":\"#\"\x7d\x7d," ++
        "\"additionalProperties\":false,\"type\":\"object\",\"required\":[\"self\"]\x7d," ++
        "\"type\":\"array\"\x7d") ∧
    ("#" : String) ≠ "#/$defs/main.S" := by
  exact ⟨by decide, by decide⟩

/-- Revision 1 rejected every unsupported kind (after pointer
indirection) with a hard `unsupported type` error naming the offending
type — the superseded engine's behaviour, kept for the record. -/
theorem rev1_unsupported_fails (env : Env) (fuel : Nat) (t : Ty)
    (h : isUnsupportedKind (stripPtr t) = true) :
    schema1.For env (fuel + 1) t = .fail ("unsupported type: " ++ typeString (stripPtr t)) := by
  have hFor : schema1.For env (fuel + 1) t =
      match schema1.schemaFor env (fuel + 1) t [] with
      | .ok (schema, defs) =>
        let defs := schema1.eraseKey (typeString t) defs
        if defs.isEmpty then .ok schema
        else .ok (.mk schema.core defs schema.items schema.properties)
      | .fail msg => .fail msg
      | .diverge => .diverge := rfl
  rw [hFor]
  cases hst : stripPtr t with
  | chanT e => simp [schema1.schemaFor, hst]
  | funcT => simp [schema1.schemaFor, hst]
  | ifaceT => simp [schema1.schemaFor, hst]
  | complexT => simp [schema1.schemaFor, hst]
  | uintptrT => simp [schema1.schemaFor, hst]
  | unsafeT => simp [schema1.schemaFor, hst]
  | bool => simp [isUnsupportedKind, hst] at h
  | str => simp [isUnsupportedKind, hst] at h
  | int k => simp [isUnsupportedKind, hst] at h
  | f32 => simp [isUnsupportedKind, hst] at h
  | f64 => simp [isUnsupportedKind, hst] at h
  | ptr e => simp [isUnsupportedKind, hst] at h
  | slice e => simp [isUnsupportedKind, hst] at h
  | array n e => simp [isUnsupportedKind, hst] at h
  | mapT k v => simp [isUnsupportedKind, hst] at h
  | strukt fs => simp [isUnsupportedKind, hst] at h
  | named s => simp [isUnsupportedKind, hst] at h
  | timeT => simp [isUnsupportedKind, hst] at h
  | urlT => simp [isUnsupportedKind, hst] at h
  | ipT => simp [isUnsupportedKind, hst] at h
  | ipAddrT => simp [isUnsupportedKind, hst] at h
  | rawMsgT => simp [isUnsupportedKind, hst] at h

/-- C2, counterexample: the engine `tool.go` links against does not
fail on a channel type — its `default` branch (the claim's own cited
lines) returns an empty schema, so derivation succeeds and serializes
the empty document (the engine's field-any test relies on this for
`any`-typed fields), falsifying "derive fails ... it never returns a
schema document for such a type". -/
theorem claim_C2_counterexample :
    isUnsupportedKind (stripPtr (Ty.chanT Ty.bool)) = true ∧
    schema2.For [] 5 (Ty.chanT Ty.bool) = .ok (schema2.leaf {}) ∧
    (schema2.For [] 5 (Ty.chanT Ty.bool)).map schema2.renderDoc = .ok "\x7b\x7d" := by
  exact ⟨by decide, rfl, by decide⟩

/-- C2, amended: the two engine revisions split on an unsupported kind.
The superseded revision 1 failed hard with `unsupported type: <kind>`;
the current engine (revision 2, the one `tool.go` links against)
silently returns the empty, unconstrained schema — serialized `{}` —
and never errors. -/
theorem claim_C2_amended (env : Env) (fuel : Nat) (t : Ty)
    (h : isUnsupportedKind (stripPtr t) = true) :
    schema2.For env (fuel + 1) t = .ok (schema2.leaf {}) ∧
    schema2.renderDoc (schema2.leaf {}) = "\x7b\x7d" ∧
    schema1.For env (fuel + 1) t =
      .fail ("unsupported type: " ++ typeString (stripPtr t)) := by
  refine ⟨?_, by decide, rev1_unsupported_fails env fuel t h⟩
  show schema2.schemaFor env (fuel + 1) t = .ok (schema2.leaf {})
  cases hst : stripPtr t with
  | chanT e => simp [schema2.schemaFor, hst]
  | funcT => simp [schema2.schemaFor, hst]
  | ifaceT => simp [schema2.schemaFor, hst]
  | complexT => simp [schema2.schemaFor, hst]
  | uintptrT => simp [schema2.schemaFor, hst]
  | unsafeT => simp [schema2.schemaFor, hst]
  | bool => simp [isUnsupportedKind, hst] at h
  | str => simp [isUnsupportedKind, hst] at h
  | int k => simp [isUnsupportedKind, hst] at h
  | f32 => simp [isUnsupportedKind, hst] at h
  | f64 => simp [isUnsupportedKind, hst] at h
  | ptr e => simp [isUnsupportedKind, hst] at h
  | slice e => simp [isUnsupportedKind, hst] at h
  | array n e => simp [isUnsupportedKind, hst] at h
  | mapT k v => simp [isUnsupportedKind, hst] at h
  | strukt fs => simp [isUnsupportedKind, hst] at h
  | named s => simp [isUnsupportedKind, hst] at h
  | timeT => simp [isUnsupportedKind, hst] at h
  | urlT => simp [isUnsupportedKind, hst] at h
  | ipT => simp [isUnsupportedKind, hst] at h
  | ipAddrT => simp [isUnsupportedKind, hst] at h
  | rawMsgT => simp [isUnsupportedKind, hst] at h

/-- C2, witness: a channel type behind a pointer — revision 2 returns
the empty document, revision 1 the hard error. -/
theorem claim_C2_witness :
    isUnsupportedKind (stripPtr (Ty.ptr (Ty.chanT Ty.bool))) = true ∧
    (schema2.For [] 1 (Ty.ptr (Ty.chanT Ty.bool)) = .ok (schema2.leaf {}) ∧
     schema2.renderDoc (schema2.leaf {}) = "\x7b\x7d" ∧
     schema1.For [] 1 (Ty.ptr (Ty.chanT Ty.bool)) = .fail "unsupported type: chan bool") := by
  exact ⟨by decide, claim_C2_amended [] 0 (Ty.ptr (Ty.chanT Ty.bool)) (by decide)⟩

/-- C6: enum coercion targets the field's inferred schema type.  An
integer field tagged `enum:"1,2,3"` yields the numeric literals 1, 2, 3
(not strings); a string-array field tagged `enum:"foo,bar"` yields the
two string entries on the item schema without JSON-bracket syntax; and
`enum:"true"` on an integer field fails the integer check with the error
naming the field and the literal. -/
theorem claim_C6_enum_coercion :
    (schema2.For [] 10 (Ty.strukt [StructField.mk "Value" (Ty.int .i)
        [("json", "value"), ("enum", "1,2,3")] false true])).map
        (fun s => (List.lookup "value" s.properties).map schema2.Schema.enum) =
      .ok (some [.num 1, .num 2, .num 3]) ∧
    (schema2.For [] 10 (Ty.strukt [StructField.mk "Value" (Ty.slice Ty.str)
        [("json", "value"), ("enum", "foo,bar")] false true])).map
        (fun s => ((List.lookup "value" s.properties).bind schema2.Schema.items).map
          schema2.Schema.enum) =
      .ok (some [.str "foo", .str "bar"]) ∧
    schema2.For [] 10 (Ty.strukt [StructField.mk "Value" (Ty.int .i)
        [("json", "value"), ("enum", "true")] false true]) =
      .fail "invalid integer tag value 'true' for field 'Value'" := by
  exact ⟨rfl, rfl, rfl⟩

/-- The one-step unfolding of revision 2's map case: the key type is
never inspected, the value type's schema becomes `additionalProperties`. -/
theorem schemaFor_mapT (env : Env) (fuel : Nat) (k v : Ty) :
    schema2.schemaFor env (fuel + 1) (Ty.mapT k v) =
      (schema2.schemaFor env fuel v).map
        (fun sv => schema2.Schema.mk { type := typeObject } none [] (some (.inr sv))) := by
  cases h : schema2.schemaFor env fuel v with
  | ok s => simp only [schema2.schemaFor, stripPtr, h, Res.map]
  | fail msg => simp only [schema2.schemaFor, stripPtr, h, Res.map]
  | diverge => simp only [schema2.schemaFor, stripPtr, h, Res.map]

/-- C10: a map type derives to an object schema whose
`additionalProperties` is exactly the value type's schema, with no
`properties` and no `required` (neither in the schema value nor in the
serialized document), and the result never inspects the key type. -/
theorem claim_C10_map_schema (env : Env) (fuel : Nat) (k₁ k₂ v : Ty) :
    schema2.schemaFor env (fuel + 1) (Ty.mapT k₁ v) =
      (schema2.schemaFor env fuel v).map
        (fun sv => schema2.Schema.mk { type := typeObject } none [] (some (.inr sv))) ∧
    schema2.schemaFor env (fuel + 1) (Ty.mapT k₁ v) =
      schema2.schemaFor env (fuel + 1) (Ty.mapT k₂ v) ∧
    (∀ sv : schema2.Schema,
      schema2.memberOf (schema2.encode
          (schema2.Schema.mk { type := typeObject } none [] (some (.inr sv)))) "properties" =
        none ∧
      schema2.memberOf (schema2.encode
          (schema2.Schema.mk { type := typeObject } none [] (some (.inr sv)))) "required" =
        none) := by
  refine ⟨schemaFor_mapT env fuel k₁ v, ?_, ?_⟩
  · rw [schemaFor_mapT env fuel k₁ v, schemaFor_mapT env fuel k₂ v]
  · intro sv
    constructor
    · simp [schema2.encode, schema2.encodeF, schema2.memberOf, schema2.encStr,
        schema2.encOptQ, schema2.encOptI, typeObject, List.lookup]
    · simp [schema2.encode, schema2.encodeF, schema2.memberOf, schema2.encStr,
        schema2.encOptQ, schema2.encOptI, typeObject, List.lookup]

/-- C3, counterexample: the field-list dedup key is the *declared* (Go)
field name, not the target property name.  With a directly declared
field `A` tagged `json:"x"` and an embedded struct whose field `B` is
also tagged `json:"x"`, the two collide by target name only, so the
embedded field is NOT discarded: it overwrites the declared field's
schema in `properties` (the document keeps the embedded `description`
"old", not the declared "new") and `"x"` is listed in `required`
twice. -/
theorem claim_C3_counterexample :
    (schema2.For [("main.Emb",
        [StructField.mk "B" Ty.str [("json", "x"), ("description", "old")] false true])] 10
        (Ty.strukt
          [StructField.mk "A" Ty.str [("json", "x"), ("description", "new")] false true,
           StructField.mk "Emb" (Ty.named "main.Emb") [] true true])).map
        (fun s => ((List.lookup "x" s.properties).map schema2.Schema.description, s.required)) =
      .ok (some "old", ["x", "x"]) ∧
    (some "old" : Option String) ≠ some "new" := by
  exact ⟨rfl, by decide⟩

/-- A field whose declared name was already seen is skipped whole. -/
theorem walkFields_skip (handle : StructField → Res schema2.Schema) (g : StructField)
    (rest : List StructField) (fieldSet : List String)
    (props : List (String × schema2.Schema)) (required : List String)
    (h : fieldSet.contains g.name = true) :
    schema2.walkFields handle (g :: rest) fieldSet props required =
      schema2.walkFields handle rest fieldSet props required := by
  simp only [schema2.walkFields, h, eq_self_iff_true, if_true]

/-- Processing one field, then continuations that agree whenever the
field's name is in the seen-set, gives equal walks. -/
theorem walkFields_congr_head (handle : StructField → Res schema2.Schema) (f : StructField)
    (rest₁ rest₂ : List StructField)
    (H : ∀ fs props req, fs.contains f.name = true →
      schema2.walkFields handle rest₁ fs props req =
        schema2.walkFields handle rest₂ fs props req) :
    ∀ fieldSet props required,
      schema2.walkFields handle (f :: rest₁) fieldSet props required =
        schema2.walkFields handle (f :: rest₂) fieldSet props required := by
  intro fieldSet props required
  by_cases hc : fieldSet.contains f.name
  · rw [walkFields_skip handle f rest₁ fieldSet props required hc,
      walkFields_skip handle f rest₂ fieldSet props required hc]
    exact H fieldSet props required hc
  · have hmem : (f.name :: fieldSet).contains f.name = true := by
      simp [List.contains_cons]
    simp only [schema2.walkFields, hc, Bool.false_eq_true, if_false]
    split
    · exact H _ _ _ hmem
    · split
      · rfl
      · split
        · rfl
        · rfl
        · exact H _ _ _ hmem

/-- The one-step unfolding of revision 2's anonymous-struct case,
keeping the recursive occurrences folded. -/
theorem schemaFor_strukt (env : Env) (fuel : Nat) (fields : List StructField) :
    schema2.schemaFor env (fuel + 1) (Ty.strukt fields) =
      (match getFields env fuel none fields [] with
       | none => Res.diverge
       | some (allFields, _) =>
         match schema2.walkFields
             (schema2.schemaForField (schema2.schemaFor env fuel)) allFields [] [] [] with
         | .fail msg => .fail msg
         | .diverge => .diverge
         | .ok (props, required) =>
           match (match schema2.findUnderscore env fuel fields with
                  | some f =>
                    match tagLookup f.tags "additionalProperties" with
                    | some _ => boolTag f "additionalProperties"
                    | none => .ok false
                  | none => Except.ok false) with
           | .error msg => .fail msg
           | .ok ap =>
             .ok (.mk { type := typeObject, required := required } none props
               (some (.inl ap)))) := rfl

/-- C3, amended: directly declared fields come first and embedded
(anonymous) fields are expanded and appended after; whenever a directly
declared field and a field inherited from an embedded type collide by
*declared field name*, the embedded field is discarded entirely before
its type or tags are even looked at: the derivation of the record equals
the derivation of the same record without the embedded type. -/
theorem claim_C3_amended (ename embName fn : String) (fty gty : Ty) (ft gt : Tags)
    (fuel : Nat) (hf : fn ≠ "_") (he : embName ≠ "_") :
    schema2.For [(ename, [StructField.mk fn gty gt false true])] (fuel + 3)
        (Ty.strukt [StructField.mk fn fty ft false true,
          StructField.mk embName (Ty.named ename) [] true true]) =
      schema2.For [(ename, [StructField.mk fn gty gt false true])] (fuel + 3)
        (Ty.strukt [StructField.mk fn fty ft false true]) := by
  have hg1 : getFields [(ename, [StructField.mk fn gty gt false true])] (fuel + 2) none
      [StructField.mk fn fty ft false true,
       StructField.mk embName (Ty.named ename) [] true true] [] =
      some ([StructField.mk fn fty ft false true, StructField.mk fn gty gt false true],
        [ename]) := by
    simp only [getFields, expandEmbedded, structFieldsOf, List.lookup, beq_self_eq_true,
      if_true, List.filter, StructField.name, StructField.typ, StructField.tags,
      StructField.anonymous, StructField.exported, Bool.not_true, Bool.not_false,
      Bool.and_true, Bool.and_false, Bool.true_and, Bool.false_and, List.contains_nil,
      List.append_nil, List.nil_append, List.cons_append, Option.map, Bool.false_eq_true,
      if_false]
  have hg2 : getFields [(ename, [StructField.mk fn gty gt false true])] (fuel + 2) none
      [StructField.mk fn fty ft false true] [] =
      some ([StructField.mk fn fty ft false true], []) := by
    simp only [getFields, expandEmbedded, structFieldsOf, List.filter, StructField.name,
      StructField.typ, StructField.tags, StructField.anonymous, StructField.exported,
      Bool.not_true, Bool.not_false, Bool.and_true, Bool.and_false, Bool.true_and,
      Bool.false_and, List.append_nil, List.nil_append, Option.map]
  have hwalk :
      schema2.walkFields
          (schema2.schemaForField
            (schema2.schemaFor [(ename, [StructField.mk fn gty gt false true])] (fuel + 2)))
          [StructField.mk fn fty ft false true, StructField.mk fn gty gt false true]
          [] [] [] =
        schema2.walkFields
          (schema2.schemaForField
            (schema2.schemaFor [(ename, [StructField.mk fn gty gt false true])] (fuel + 2)))
          [StructField.mk fn fty ft false true] [] [] [] := by
    refine walkFields_congr_head _ _ _ _ (fun fs props req h => ?_) [] [] []
    refine walkFields_skip _ _ _ _ _ _ ?_
    simpa [StructField.name] using h
  have hu : schema2.findUnderscore [(ename, [StructField.mk fn gty gt false true])] (fuel + 2)
      [StructField.mk fn fty ft false true,
       StructField.mk embName (Ty.named ename) [] true true] = none := by
    simp [schema2.findUnderscore, schema2.findUnderscoreF, schema2.levelBlanks,
      schema2.embeddedRefs, schema2.buildNext, List.filter, List.filterMap,
      StructField.name, StructField.typ, StructField.anonymous, stripPtr,
      List.lookup, hf, he]
  have hu2 : schema2.findUnderscore [(ename, [StructField.mk fn gty gt false true])] (fuel + 2)
      [StructField.mk fn fty ft false true] = none := by
    simp [schema2.findUnderscore, schema2.findUnderscoreF, schema2.levelBlanks,
      schema2.embeddedRefs, schema2.buildNext, List.filter, List.filterMap,
      StructField.name, StructField.typ, StructField.anonymous, hf]
  show schema2.schemaFor _ ((fuel + 2) + 1) _ = schema2.schemaFor _ ((fuel + 2) + 1) _
  rw [schemaFor_strukt, schemaFor_strukt, hg1, hg2, hu, hu2]
  dsimp only
  rw [hwalk]

/-- C3, witness: a concrete record where a directly declared field and
an embedded field share the declared name `A`. -/
theorem claim_C3_witness :
    ("A" : String) ≠ "_" ∧ ("E" : String) ≠ "_" ∧
    schema2.For [("main.Emb", [StructField.mk "A" Ty.bool [("description", "old")] false true])]
        8 (Ty.strukt [StructField.mk "A" Ty.str [("json", "x")] false true,
          StructField.mk "E" (Ty.named "main.Emb") [] true true]) =
      schema2.For [("main.Emb", [StructField.mk "A" Ty.bool [("description", "old")] false true])]
        8 (Ty.strukt [StructField.mk "A" Ty.str [("json", "x")] false true]) := by
  exact ⟨by decide, by decide,
    claim_C3_amended "main.Emb" "E" "A" Ty.str Ty.bool [("json", "x")]
      [("description", "old")] 5 (by decide) (by decide)⟩

/-- One walk step over a plain `string` field whose only tag is a
`json` name: the field becomes a property under its tag name and joins
`required`. -/
theorem walkFields_string_step (env : Env) (fuel : Nat) (gn t : String)
    (rest : List StructField) (fieldSet : List String)
    (props : List (String × schema2.Schema)) (required : List String)
    (hcut : goCutComma t = t) (hne : t ≠ "") (hnd : t ≠ "-")
    (hom : goContains t "omitempty" = false)
    (hmem : fieldSet.contains gn = false) :
    schema2.walkFields (schema2.schemaForField (schema2.schemaFor env (fuel + 1)))
        (StructField.mk gn Ty.str [("json", t)] false true :: rest) fieldSet props required =
      schema2.walkFields (schema2.schemaForField (schema2.schemaFor env (fuel + 1)))
        rest (gn :: fieldSet) (schema2.upsert t stringSchema props) (required ++ [t]) := by
  have hhandle : schema2.schemaForField (schema2.schemaFor env (fuel + 1))
      (StructField.mk gn Ty.str [("json", t)] false true) = .ok stringSchema := rfl
  simp only [schema2.walkFields, StructField.name, StructField.tags, hmem,
    Bool.false_eq_true, if_false, hhandle]
  have htg : tagGet [("json", t)] "json" = t := rfl
  have htl : tagLookup [("json", t)] "required" = none := rfl
  simp only [htg, htl, hcut, if_neg hnd, if_neg hne, hom, Bool.not_false, if_true]

/-- Association-list lookup distributes over append. -/
theorem lookupAppend (k : String) (l₁ l₂ : List (String × JAny)) :
    List.lookup k (l₁ ++ l₂) =
      (match List.lookup k l₁ with
       | some v => some v
       | none => List.lookup k l₂) := by
  induction l₁ with
  | nil => rfl
  | cons hd tl ih =>
    cases hd with
    | mk k' v =>
      by_cases h : (k == k') = true
      · simp [List.lookup, h]
      · simp only [Bool.not_eq_true] at h
        simp [List.lookup, h, ih]

namespace schema2

/-- What a key finds in the `items` section. -/
theorem lookup_encItems (k : String) (o : Option JAny) :
    List.lookup k (encItems o) = if k == "items" then o else none := by
  cases o <;> simp [encItems, List.lookup] <;> split <;> simp_all

/-- What a key finds in the `properties` section. -/
theorem lookup_encProps (k : String) (l : List (String × JAny)) :
    List.lookup k (encProps l) =
      if l.isEmpty then none
      else if k == "properties" then some (.obj (sortPairs l)) else none := by
  unfold encProps
  split
  · simp
  · by_cases hk : k = "properties"
    · subst hk; simp [List.lookup]
    · simp [List.lookup, beq_false_of_ne hk, hk]

/-- What a key finds in the `additionalProperties` section. -/
theorem lookup_encAP (k : String) (o : Option (Bool ⊕ JAny)) :
    List.lookup k (encAP o) =
      if k == "additionalProperties" then
        (match o with
         | none => none
         | some (.inl b) => some (.bool b)
         | some (.inr j) => some j)
      else none := by
  cases o with
  | none => simp [encAP, List.lookup]
  | some x =>
    cases x <;> by_cases hk : k = "additionalProperties" <;>
      first
      | (subst hk; simp [encAP, List.lookup])
      | simp [encAP, List.lookup, beq_false_of_ne hk, hk]

/-- What a key finds in a string-valued section. -/
theorem lookup_encStr (k k' s : String) :
    List.lookup k (encStr k' s) =
      if s == "" then none
      else if k == k' then some (.str s) else none := by
  unfold encStr
  by_cases h : s = ""
  · simp [h]
  · by_cases hk : k = k'
    · subst hk; simp [h, List.lookup]
    · simp [h, List.lookup, beq_false_of_ne hk, hk]

/-- What a key finds in an optional-rational section. -/
theorem lookup_encOptQ (k k' : String) (o : Option ℚ) :
    List.lookup k (encOptQ k' o) =
      if k == k' then o.map (fun q => JAny.num q) else none := by
  cases o <;> simp [encOptQ, List.lookup] <;> split <;> simp_all

/-- What a key finds in an optional-integer section. -/
theorem lookup_encOptI (k k' : String) (o : Option Int) :
    List.lookup k (encOptI k' o) =
      if k == k' then o.map (fun n => JAny.num (Rat.divInt n 1)) else none := by
  cases o <;> simp [encOptI, List.lookup] <;> split <;> simp_all

/-- What a key finds in a list-valued section. -/
theorem lookup_encList (k k' : String) (l : List JAny) :
    List.lookup k (encList k' l) =
      if l.isEmpty then none
      else if k == k' then some (.arr l) else none := by
  unfold encList
  split
  · simp
  · by_cases hk : k = k'
    · subst hk; simp [List.lookup]
    · simp [List.lookup, beq_false_of_ne hk, hk]

/-- What a key finds in a boolean section. -/
theorem lookup_encBool (k k' : String) (b : Bool) :
    List.lookup k (encBool k' b) =
      if b then (if k == k' then some (.bool true) else none) else none := by
  unfold encBool
  split
  · by_cases hk : k = k'
    · subst hk; simp [List.lookup]
    · simp [List.lookup, beq_false_of_ne hk, hk]
  · simp

/-- The `required` member of a marshalled schema: present exactly when
the `Required` list is non-empty, holding its entries in order. -/
theorem memberOf_encodeF_required (fuel : Nat) (c : Core) (items : Option Schema)
    (props : List (String × Schema)) (ap : Option (Bool ⊕ Schema)) :
    memberOf (encodeF (fuel + 1) (.mk c items props ap)) "required" =
      (if c.required.isEmpty then none else some (.arr (c.required.map JAny.str))) := by
  simp [encodeF, memberOf, lookupAppend, lookup_encItems, lookup_encProps, lookup_encAP,
    lookup_encStr, lookup_encList, lookup_encOptQ, lookup_encOptI, lookup_encBool]
  by_cases h : c.required = [] <;> simp [h]

/-- The `properties` member of a marshalled schema: present exactly when
the `Properties` map is non-empty, holding the encoded entries
key-sorted. -/
theorem memberOf_encodeF_properties (fuel : Nat) (c : Core) (items : Option Schema)
    (props : List (String × Schema)) (ap : Option (Bool ⊕ Schema)) :
    memberOf (encodeF (fuel + 1) (.mk c items props ap)) "properties" =
      (if props.isEmpty then none
       else some (.obj (sortPairs (props.map (fun kv => (kv.1, encodeF fuel kv.2)))))) := by
  simp [encodeF, memberOf, lookupAppend, lookup_encItems, lookup_encProps, lookup_encAP,
    lookup_encStr, lookup_encList, lookup_encOptQ, lookup_encOptI, lookup_encBool]
  by_cases h : props = [] <;> simp [h, List.isEmpty_iff, List.map_eq_nil]

/-- `memberOf_encodeF_required` at the fixed marshalling fuel. -/
theorem memberOf_encode_required (c : Core) (items : Option Schema)
    (props : List (String × Schema)) (ap : Option (Bool ⊕ Schema)) :
    memberOf (encode (.mk c items props ap)) "required" =
      (if c.required.isEmpty then none else some (.arr (c.required.map JAny.str))) :=
  memberOf_encodeF_required 999999 c items props ap

/-- `memberOf_encodeF_properties` at the fixed marshalling fuel. -/
theorem memberOf_encode_properties (c : Core) (items : Option Schema)
    (props : List (String × Schema)) (ap : Option (Bool ⊕ Schema)) :
    memberOf (encode (.mk c items props ap)) "properties" =
      (if props.isEmpty then none
       else some (.obj (sortPairs (props.map (fun kv => (kv.1, encodeF 999999 kv.2)))))) :=
  memberOf_encodeF_properties 999999 c items props ap

end schema2

/-- C4, counterexample: a record declaring its fields under the target
names `b` then `a` serializes `properties` in sorted key order `a`, `b`
(Go marshals maps key-sorted), not in the declared order — while
`required` does keep the declared order `b`, `a`. -/
theorem claim_C4_counterexample :
    (schema2.For [] 10 (Ty.strukt
        [StructField.mk "F1" Ty.str [("json", "b")] false true,
         StructField.mk "F2" Ty.str [("json", "a")] false true])).map
        (fun s =>
          ((match schema2.memberOf (schema2.encode s) "properties" with
            | some (.obj l) => l.map Prod.fst
            | _ => []), s.required)) =
      .ok (["a", "b"], ["b", "a"]) ∧
    (["a", "b"] : List String) ≠ ["b", "a"] := by
  exact ⟨by decide, by decide⟩

/-- The empty field list ends the walk with the accumulated properties
and required list. -/
theorem walkFields_nil (handle : StructField → Res schema2.Schema) (fs : List String)
    (props : List (String × schema2.Schema)) (required : List String) :
    schema2.walkFields handle [] fs props required = .ok (props, required) := rfl

/-- C4, amended: in the serialized document, `required` lists the
record's fields in declared field order, while the entries of
`properties` appear in ascending (lexicographic) key order, whatever the
declared order was. -/
theorem claim_C4_amended (t₁ t₂ : String) (fuel : Nat)
    (hcut₁ : goCutComma t₁ = t₁) (hcut₂ : goCutComma t₂ = t₂)
    (hne : t₁ ≠ t₂) (hn₁ : t₁ ≠ "") (hn₂ : t₂ ≠ "") (hd₁ : t₁ ≠ "-") (hd₂ : t₂ ≠ "-")
    (ho₁ : goContains t₁ "omitempty" = false) (ho₂ : goContains t₂ "omitempty" = false) :
    ∃ s, schema2.For [] (fuel + 2) (Ty.strukt
        [StructField.mk "F1" Ty.str [("json", t₁)] false true,
         StructField.mk "F2" Ty.str [("json", t₂)] false true]) = .ok s ∧
      s.required = [t₁, t₂] ∧
      schema2.memberOf (schema2.encode s) "required" = some (.arr [.str t₁, .str t₂]) ∧
      ∃ l, schema2.memberOf (schema2.encode s) "properties" = some (.obj l) ∧
        l.map Prod.fst = (if t₁.data ≤ t₂.data then [t₁, t₂] else [t₂, t₁]) := by
  have hup : schema2.upsert t₂ stringSchema (schema2.upsert t₁ stringSchema []) =
      [(t₁, stringSchema), (t₂, stringSchema)] := by
    simp [schema2.upsert, hne]
  have hfor : schema2.For [] (fuel + 2) (Ty.strukt
      [StructField.mk "F1" Ty.str [("json", t₁)] false true,
       StructField.mk "F2" Ty.str [("json", t₂)] false true]) =
      .ok (.mk { type := typeObject, required := [t₁, t₂] } none
        [(t₁, stringSchema), (t₂, stringSchema)] (some (.inl false))) := by
    show schema2.schemaFor _ ((fuel + 1) + 1) _ = _
    rw [schemaFor_strukt]
    have hg : getFields [] (fuel + 1) none
        [StructField.mk "F1" Ty.str [("json", t₁)] false true,
         StructField.mk "F2" Ty.str [("json", t₂)] false true] [] =
        some ([StructField.mk "F1" Ty.str [("json", t₁)] false true,
          StructField.mk "F2" Ty.str [("json", t₂)] false true], []) := rfl
    rw [hg]
    dsimp only
    rw [walkFields_string_step [] fuel "F1" t₁
        [StructField.mk "F2" Ty.str [("json", t₂)] false true] [] [] []
        hcut₁ hn₁ hd₁ ho₁ rfl,
      walkFields_string_step [] fuel "F2" t₂ [] ["F1"]
        (schema2.upsert t₁ stringSchema []) ([] ++ [t₁])
        hcut₂ hn₂ hd₂ ho₂ rfl,
      walkFields_nil]
    dsimp only
    rw [hup]
    have hfu : (match schema2.findUnderscore [] (fuel + 1)
        [StructField.mk "F1" Ty.str [("json", t₁)] false true,
         StructField.mk "F2" Ty.str [("json", t₂)] false true] with
      | some f =>
        match tagLookup f.tags "additionalProperties" with
        | some _ => boolTag f "additionalProperties"
        | none => Except.ok false
      | none => Except.ok false) = Except.ok false := rfl
    rw [hfu]
    dsimp only
    simp
  refine ⟨_, hfor, rfl, ?_, ?_⟩
  · rw [schema2.memberOf_encode_required]
    simp
  · refine ⟨schema2.sortPairs
      [(t₁, schema2.encodeF 999999 stringSchema), (t₂, schema2.encodeF 999999 stringSchema)],
      ?_, ?_⟩
    · rw [schema2.memberOf_encode_properties]
      simp
    · by_cases hle : t₁.data ≤ t₂.data
      · simp [schema2.sortPairs, List.insertionSort, List.orderedInsert, hle]
      · simp [schema2.sortPairs, List.insertionSort, List.orderedInsert, hle]

/-- C4, witness: declared order `b`, `a`; serialized `properties` come
out `a`, `b`. -/
theorem claim_C4_witness :
    goCutComma "b" = "b" ∧ goCutComma "a" = "a" ∧ ("b" : String) ≠ "a" ∧
    goContains "b" "omitempty" = false ∧ goContains "a" "omitempty" = false ∧
    ∃ s, schema2.For [] 2 (Ty.strukt
        [StructField.mk "F1" Ty.str [("json", "b")] false true,
         StructField.mk "F2" Ty.str [("json", "a")] false true]) = .ok s ∧
      s.required = ["b", "a"] ∧
      schema2.memberOf (schema2.encode s) "required" = some (.arr [.str "b", .str "a"]) ∧
      ∃ l, schema2.memberOf (schema2.encode s) "properties" = some (.obj l) ∧
        l.map Prod.fst = (if "b".data ≤ "a".data then ["b", "a"] else ["a", "b"]) := by
  exact ⟨by decide, by decide, by decide, by decide, by decide,
    claim_C4_amended "b" "a" 0 (by decide) (by decide) (by decide) (by decide) (by decide)
      (by decide) (by decide) (by decide) (by decide)⟩

/-- One walk step over a single `string` field with a `json` tag and
possible further tags, given the resolved required-ness and the field's
derived schema. -/
theorem walkFields_one_field (env : Env) (fuel : Nat) (gn jt : String) (extraTags : Tags)
    (freq : Bool)
    (hnd : goCutComma jt ≠ "-")
    (hreq : (match tagLookup (("json", jt) :: extraTags) "required" with
             | some _ =>
               boolTag (StructField.mk gn Ty.str (("json", jt) :: extraTags) false true)
                 "required"
             | none => Except.ok (!goContains jt "omitempty")) = .ok freq)
    (hhandle : schema2.schemaForField (schema2.schemaFor env (fuel + 1))
        (StructField.mk gn Ty.str (("json", jt) :: extraTags) false true) =
      .ok stringSchema) :
    schema2.walkFields (schema2.schemaForField (schema2.schemaFor env (fuel + 1)))
        [StructField.mk gn Ty.str (("json", jt) :: extraTags) false true] [] [] [] =
      .ok ([(if goCutComma jt = "" then gn else goCutComma jt, stringSchema)],
        if freq then [if goCutComma jt = "" then gn else goCutComma jt] else []) := by
  have htg : tagGet (("json", jt) :: extraTags) "json" = jt := rfl
  simp only [schema2.walkFields, StructField.name, StructField.tags, List.contains_nil,
    Bool.false_eq_true, if_false, htg, if_neg hnd, hreq, hhandle, walkFields_nil]
  cases freq <;> rfl

/-- One walk step over a single field whose required-tag resolution
fails: the whole walk fails with that error. -/
theorem walkFields_one_field_fail (env : Env) (fuel : Nat) (gn jt : String)
    (extraTags : Tags) (msg : String)
    (hnd : goCutComma jt ≠ "-")
    (hreq : (match tagLookup (("json", jt) :: extraTags) "required" with
             | some _ =>
               boolTag (StructField.mk gn Ty.str (("json", jt) :: extraTags) false true)
                 "required"
             | none => Except.ok (!goContains jt "omitempty")) = .error msg) :
    schema2.walkFields (schema2.schemaForField (schema2.schemaFor env (fuel + 1)))
        [StructField.mk gn Ty.str (("json", jt) :: extraTags) false true] [] [] [] =
      .fail msg := by
  have htg : tagGet (("json", jt) :: extraTags) "json" = jt := rfl
  simp only [schema2.walkFields, StructField.name, StructField.tags, List.contains_nil,
    Bool.false_eq_true, if_false, htg, if_neg hnd, hreq]

/-- C5, counterexample: the field's `json` tag is `"omitempty"` — that
names the field `omitempty` and carries no modifier at all, and no
`required` tag is present, so the claim's resolution makes the field
required.  The code instead tests for the *substring* "omitempty"
anywhere in the tag and drops the field from `required`. -/
theorem claim_C5_counterexample :
    specCarriesOmitempty "omitempty" = false ∧
    tagLookup [("json", "omitempty")] "required" = none ∧
    (schema2.For [] 10 (Ty.strukt
        [StructField.mk "F" Ty.str [("json", "omitempty")] false true])).map
        (fun s => (s.required, s.properties.map Prod.fst)) =
      .ok ([], ["omitempty"]) := by
  exact ⟨by decide, rfl, rfl⟩

/-- C5, amended: a field's required-ness defaults to `true`, becomes
`false` iff the `json` tag *contains the text* "omitempty" anywhere (the
code tests the whole tag for that substring, not the modifier position),
and is overridden by an explicit `required` tag when present (`"true"`
makes it required; `"false"` or an empty literal make it optional). -/
theorem claim_C5_amended (jt : String) (rv : Option String) (fuel : Nat)
    (hnd : goCutComma jt ≠ "-")
    (hrv : rv = none ∨ rv = some "" ∨ rv = some "true" ∨ rv = some "false") :
    (schema2.For [] (fuel + 2) (Ty.strukt [StructField.mk "F" Ty.str
        (("json", jt) :: (match rv with
          | some v => [("required", v)]
          | none => [])) false true])).map schema2.Schema.required =
      .ok (if (match rv with
               | none => !goContains jt "omitempty"
               | some "true" => true
               | some _ => false) then
        [if goCutComma jt = "" then "F" else goCutComma jt] else []) := by
  have hfu : ∀ ts, (match schema2.findUnderscore [] (fuel + 1)
      [StructField.mk "F" Ty.str ts false true] with
    | some f =>
      match tagLookup f.tags "additionalProperties" with
      | some _ => boolTag f "additionalProperties"
      | none => Except.ok false
    | none => Except.ok false) = Except.ok false := fun _ => rfl
  rcases hrv with h | h | h | h <;> subst h
  all_goals
    show (schema2.schemaFor _ ((fuel + 1) + 1) _).map _ = _
    rw [schemaFor_strukt]
  · rw [show getFields [] (fuel + 1) none
        [StructField.mk "F" Ty.str [("json", jt)] false true] [] =
        some ([StructField.mk "F" Ty.str [("json", jt)] false true], []) from rfl]
    dsimp only
    rw [walkFields_one_field [] fuel "F" jt [] (!goContains jt "omitempty") hnd rfl rfl]
    dsimp only
    rw [hfu]
    rfl
  · rw [show getFields [] (fuel + 1) none
        [StructField.mk "F" Ty.str [("json", jt), ("required", "")] false true] [] =
        some ([StructField.mk "F" Ty.str [("json", jt), ("required", "")] false true], [])
        from rfl]
    dsimp only
    rw [walkFields_one_field [] fuel "F" jt [("required", "")] false hnd rfl rfl]
    dsimp only
    rw [hfu]
    rfl
  · rw [show getFields [] (fuel + 1) none
        [StructField.mk "F" Ty.str [("json", jt), ("required", "true")] false true] [] =
        some ([StructField.mk "F" Ty.str [("json", jt), ("required", "true")] false true], [])
        from rfl]
    dsimp only
    rw [walkFields_one_field [] fuel "F" jt [("required", "true")] true hnd rfl rfl]
    dsimp only
    rw [hfu]
    rfl
  · rw [show getFields [] (fuel + 1) none
        [StructField.mk "F" Ty.str [("json", jt), ("required", "false")] false true] [] =
        some ([StructField.mk "F" Ty.str [("json", jt), ("required", "false")] false true], [])
        from rfl]
    dsimp only
    rw [walkFields_one_field [] fuel "F" jt [("required", "false")] false hnd rfl rfl]
    dsimp only
    rw [hfu]
    rfl

/-- C5, witness: with the tag `json:"x,omitempty"` and no `required`
tag the field is optional; the theorem's required-ness formula agrees. -/
theorem claim_C5_witness :
    goCutComma "x,omitempty" ≠ "-" ∧
    ((none : Option String) = none ∨ (none : Option String) = some "" ∨
      (none : Option String) = some "true" ∨ (none : Option String) = some "false") ∧
    (schema2.For [] 2 (Ty.strukt [StructField.mk "F" Ty.str
        [("json", "x,omitempty")] false true])).map schema2.Schema.required =
      .ok (if !goContains "x,omitempty" "omitempty" then
        [if goCutComma "x,omitempty" = "" then "F" else goCutComma "x,omitempty"] else []) := by
  exact ⟨by decide, Or.inl rfl,
    claim_C5_amended "x,omitempty" none 0 (by decide) (Or.inl rfl)⟩

/-- C9, counterexample: a `required` tag whose literal is the empty
string is neither "true" nor "false", yet the derivation succeeds (the
empty literal is read as `false`) instead of failing. -/
theorem claim_C9_counterexample :
    ("" : String) ≠ "true" ∧ ("" : String) ≠ "false" ∧
    tagLookup [("json", "v"), ("required", "")] "required" = some "" ∧
    (schema2.For [] 10 (Ty.strukt [StructField.mk "F" Ty.str
        [("json", "v"), ("required", "")] false true])).map
        (fun s => (s.required, s.properties.map Prod.fst)) = .ok ([], ["v"]) := by
  exact ⟨by decide, by decide, rfl, rfl⟩

/-- C9, amended: a boolean tag literal is accepted exactly when it is
"true", "false" or the *empty string* (read as `false`); any other
literal fails with an error naming the tag and the field.  Stated for
the shared boolean-tag reader and, end to end, for a `required` tag on
a record field. -/
theorem claim_C9_amended (v : String) (fuel : Nat) :
    boolTag (StructField.mk "F" Ty.str [("required", v)] false true) "required" =
      (if v = "" ∨ v = "true" ∨ v = "false" then .ok (v = "true")
       else .error ("invalid bool tag 'required' for field 'F': " ++ v)) ∧
    (schema2.For [] (fuel + 2) (Ty.strukt [StructField.mk "F" Ty.str
        [("json", "v"), ("required", v)] false true])).map schema2.Schema.required =
      (if v = "true" then .ok ["v"]
       else if v = "" ∨ v = "false" then .ok []
       else .fail ("invalid bool tag 'required' for field 'F': " ++ v)) := by
  have hfu : (match schema2.findUnderscore [] (fuel + 1)
      [StructField.mk "F" Ty.str [("json", "v"), ("required", v)] false true] with
    | some f =>
      match tagLookup f.tags "additionalProperties" with
      | some _ => boolTag f "additionalProperties"
      | none => Except.ok false
    | none => Except.ok false) = Except.ok false := rfl
  by_cases hv1 : v = "true"
  · subst hv1
    refine ⟨rfl, ?_⟩
    show (schema2.schemaFor _ ((fuel + 1) + 1) _).map _ = _
    rw [schemaFor_strukt]
    rw [show getFields [] (fuel + 1) none
        [StructField.mk "F" Ty.str [("json", "v"), ("required", "true")] false true] [] =
        some ([StructField.mk "F" Ty.str [("json", "v"), ("required", "true")] false true], [])
        from rfl]
    dsimp only
    rw [walkFields_one_field [] fuel "F" "v" [("required", "true")] true (by decide) rfl rfl]
    dsimp only
    rw [hfu]
    rfl
  by_cases hv2 : v = "false"
  · subst hv2
    refine ⟨rfl, ?_⟩
    show (schema2.schemaFor _ ((fuel + 1) + 1) _).map _ = _
    rw [schemaFor_strukt]
    rw [show getFields [] (fuel + 1) none
        [StructField.mk "F" Ty.str [("json", "v"), ("required", "false")] false true] [] =
        some ([StructField.mk "F" Ty.str [("json", "v"), ("required", "false")] false true], [])
        from rfl]
    dsimp only
    rw [walkFields_one_field [] fuel "F" "v" [("required", "false")] false (by decide) rfl rfl]
    dsimp only
    rw [hfu]
    rfl
  by_cases hv3 : v = ""
  · subst hv3
    refine ⟨rfl, ?_⟩
    show (schema2.schemaFor _ ((fuel + 1) + 1) _).map _ = _
    rw [schemaFor_strukt]
    rw [show getFields [] (fuel + 1) none
        [StructField.mk "F" Ty.str [("json", "v"), ("required", "")] false true] [] =
        some ([StructField.mk "F" Ty.str [("json", "v"), ("required", "")] false true], [])
        from rfl]
    dsimp only
    rw [walkFields_one_field [] fuel "F" "v" [("required", "")] false (by decide) rfl rfl]
    dsimp only
    rw [hfu]
    rfl
  · have hor : ¬(v = "" ∨ v = "true" ∨ v = "false") := by
      intro h
      rcases h with h | h | h
      · exact hv3 h
      · exact hv1 h
      · exact hv2 h
    have hor2 : ¬(v = "" ∨ v = "false") := by
      intro h
      rcases h with h | h
      · exact hv3 h
      · exact hv2 h
    have hval : tagGet [("required", v)] "required" = v := rfl
    have hval2 : tagGet [("json", "v"), ("required", v)] "required" = v := rfl
    constructor
    · simp only [boolTag, StructField.tags, hval, if_neg hv3, if_neg hv1, if_neg hv2,
        StructField.name, if_neg hor]
      rfl
    · have hreq : (match tagLookup (("json", "v") :: [("required", v)]) "required" with
          | some _ =>
            boolTag (StructField.mk "F" Ty.str (("json", "v") :: [("required", v)]) false true)
              "required"
          | none => Except.ok (!goContains "v" "omitempty")) =
          .error ("invalid bool tag 'required' for field 'F': " ++ v) := by
        show boolTag _ _ = _
        simp only [boolTag, StructField.tags, hval2, if_neg hv3, if_neg hv1, if_neg hv2,
          StructField.name]
        rfl
      show (schema2.schemaFor _ ((fuel + 1) + 1) _).map _ = _
      rw [schemaFor_strukt]
      rw [show getFields [] (fuel + 1) none
          [StructField.mk "F" Ty.str [("json", "v"), ("required", v)] false true] [] =
          some ([StructField.mk "F" Ty.str [("json", "v"), ("required", v)] false true], [])
          from rfl]
      dsimp only
      rw [walkFields_one_field_fail [] fuel "F" "v" [("required", v)]
        ("invalid bool tag 'required' for field 'F': " ++ v) (by decide) hreq]
      rw [if_neg hv1, if_neg hor2]
      rfl

/-- The serializer's key sort is insensitive to the order its input
member list arrives in, as long as keys are distinct: any permutation
sorts to the same list.  This is what keeps Go's nondeterministic map
iteration order out of the output bytes. -/
theorem sortPairs_eq_of_perm (l₁ l₂ : List (String × JAny))
    (hp : List.Perm l₁ l₂) (hnd : (l₁.map Prod.fst).Nodup) :
    schema2.sortPairs l₁ = schema2.sortPairs l₂ := by
  haveI htot : IsTotal (String × JAny) (fun a b => a.1.data ≤ b.1.data) :=
    ⟨fun a b => le_total a.1.data b.1.data⟩
  haveI htr : IsTrans (String × JAny) (fun a b => a.1.data ≤ b.1.data) :=
    ⟨fun a b c hab hbc => le_trans hab hbc⟩
  haveI hanti : IsAntisymm (String × JAny) (fun a b => a.1.data < b.1.data) :=
    ⟨fun a b hab hba => absurd hba (lt_asymm hab)⟩
  have hstrinj : ∀ x y : String, x.data = y.data → x = y := by
    intro x y h
    cases x
    cases y
    cases h
    rfl
  have hp₁ : List.Perm (schema2.sortPairs l₁) l₁ := List.perm_insertionSort _ l₁
  have hp₂ : List.Perm (schema2.sortPairs l₂) l₂ := List.perm_insertionSort _ l₂
  have hs₁ : List.Sorted (fun a b => a.1.data ≤ b.1.data) (schema2.sortPairs l₁) :=
    List.sorted_insertionSort _ l₁
  have hs₂ : List.Sorted (fun a b => a.1.data ≤ b.1.data) (schema2.sortPairs l₂) :=
    List.sorted_insertionSort _ l₂
  have hnd₂ : (l₂.map Prod.fst).Nodup := ((hp.map Prod.fst).nodup_iff).mp hnd
  have hnds₁ : ((schema2.sortPairs l₁).map Prod.fst).Nodup :=
    ((hp₁.map Prod.fst).nodup_iff).mpr hnd
  have hnds₂ : ((schema2.sortPairs l₂).map Prod.fst).Nodup :=
    ((hp₂.map Prod.fst).nodup_iff).mpr hnd₂
  have hne₁ : List.Pairwise (fun a b : String × JAny => a.1 ≠ b.1) (schema2.sortPairs l₁) :=
    List.pairwise_map.mp hnds₁
  have hne₂ : List.Pairwise (fun a b : String × JAny => a.1 ≠ b.1) (schema2.sortPairs l₂) :=
    List.pairwise_map.mp hnds₂
  have hstep : ∀ {a b : String × JAny},
      a.1.data ≤ b.1.data ∧ a.1 ≠ b.1 → a.1.data < b.1.data := by
    intro a b hab
    exact lt_of_le_of_ne hab.1 (fun hdeq => hab.2 (hstrinj _ _ hdeq))
  have hstrict₁ : List.Sorted (fun a b : String × JAny => a.1.data < b.1.data)
      (schema2.sortPairs l₁) := (List.Pairwise.and hs₁ hne₁).imp hstep
  have hstrict₂ : List.Sorted (fun a b : String × JAny => a.1.data < b.1.data)
      (schema2.sortPairs l₂) := (List.Pairwise.and hs₂ hne₂).imp hstep
  exact List.eq_of_perm_of_sorted (hp₁.trans (hp.trans hp₂.symm)) hstrict₁ hstrict₂

/-- C8: derivation is a pure function of the input type, and the one
internal source of nondeterminism in the engine — the iteration order of
the Go map holding `properties` — cannot reach the output: replacing a
derived schema's property list by any reordering of it (keys are
distinct) renders the byte-identical document. -/
theorem claim_C8_deterministic_output (env : Env) (fuel : Nat) (t : Ty)
    (s₁ s₂ : schema2.Schema)
    (h₁ : schema2.For env fuel t = .ok s₁)
    (hcore : s₁.core = s₂.core) (hitems : s₁.items = s₂.items) (hap : s₁.ap = s₂.ap)
    (hperm : List.Perm s₁.properties s₂.properties)
    (hnd : (s₁.properties.map Prod.fst).Nodup) :
    schema2.renderDoc s₂ = schema2.renderDoc s₁ := by
  obtain ⟨c₁, it₁, p₁, ap₁⟩ := s₁
  obtain ⟨c₂, it₂, p₂, ap₂⟩ := s₂
  dsimp only [schema2.Schema.core, schema2.Schema.items, schema2.Schema.properties,
    schema2.Schema.ap] at hcore hitems hap hperm hnd
  subst hcore
  subst hitems
  subst hap
  have hf : (Prod.fst ∘ fun kv : String × schema2.Schema =>
      (kv.1, schema2.encodeF 999999 kv.2)) = Prod.fst := funext fun kv => rfl
  have hnd' : ((p₁.map (fun kv : String × schema2.Schema =>
      (kv.1, schema2.encodeF 999999 kv.2))).map Prod.fst).Nodup := by
    rw [List.map_map, hf]
    exact hnd
  have hsp : schema2.sortPairs (p₁.map (fun kv => (kv.1, schema2.encodeF 999999 kv.2))) =
      schema2.sortPairs (p₂.map (fun kv => (kv.1, schema2.encodeF 999999 kv.2))) :=
    sortPairs_eq_of_perm _ _ (hperm.map _) hnd'
  have hE : (p₂.map (fun kv : String × schema2.Schema =>
      (kv.1, schema2.encodeF 999999 kv.2))).isEmpty =
      (p₁.map (fun kv : String × schema2.Schema =>
        (kv.1, schema2.encodeF 999999 kv.2))).isEmpty := by
    cases p₁ with
    | nil =>
      rw [(hperm.symm).eq_nil]
    | cons a t =>
      cases p₂ with
      | nil => exact absurd hperm.eq_nil (by simp)
      | cons b u => rfl
  show jrender (schema2.encodeF (999999 + 1) _) = jrender (schema2.encodeF (999999 + 1) _)
  simp only [schema2.encodeF]
  rw [schema2.encProps, schema2.encProps, hE, ← hsp]

/-- C8, witness: the schema of a two-field record rendered with its
property list reversed gives the same bytes. -/
theorem claim_C8_witness :
    schema2.For [] 2 (Ty.strukt
      [StructField.mk "F1" Ty.str [("json", "a")] false true,
       StructField.mk "F2" Ty.str [("json", "b")] false true]) =
      .ok (.mk { type := typeObject, required := ["a", "b"] } none
        [("a", stringSchema), ("b", stringSchema)] (some (.inl false))) ∧
    List.Perm [("a", stringSchema), ("b", stringSchema)]
      [("b", stringSchema), ("a", stringSchema)] ∧
    ([("a", stringSchema), ("b", stringSchema)].map
      (Prod.fst (α := String) (β := schema2.Schema))).Nodup ∧
    schema2.renderDoc (.mk { type := typeObject, required := ["a", "b"] } none
        [("b", stringSchema), ("a", stringSchema)] (some (.inl false))) =
      schema2.renderDoc (.mk { type := typeObject, required := ["a", "b"] } none
        [("a", stringSchema), ("b", stringSchema)] (some (.inl false))) := by
  refine ⟨rfl, List.Perm.swap _ _ _, by decide, ?_⟩
  exact claim_C8_deterministic_output [] 2 (Ty.strukt
      [StructField.mk "F1" Ty.str [("json", "a")] false true,
       StructField.mk "F2" Ty.str [("json", "b")] false true])
    (.mk { type := typeObject, required := ["a", "b"] } none
      [("a", stringSchema), ("b", stringSchema)] (some (.inl false)))
    (.mk { type := typeObject, required := ["a", "b"] } none
      [("b", stringSchema), ("a", stringSchema)] (some (.inl false)))
    rfl rfl rfl rfl (List.Perm.swap _ _ _) (by decide)
